import Mathlib

/-!
Verification development for the sql_lineage library: a shallow embedding of
its data model, column-reference resolution, transitive CTE/subquery
expansion, union merging, dependency aggregation, graph building and graph
export, together with theorems settling the specified behaviour.

The SQL-dialect parser (sqlglot) is external to the core per the spec; parsed
expressions are therefore modelled by the enumerations the core actually
consumes from them (column-reference leaves, function-call names, literal
values), and the small set of shape tests the core performs on them.
-/

namespace SqlLineage

/-- models.py ColumnRef: a possibly-unqualified column mention.
`table = none` mirrors Python `table=None`. Equality is structural,
i.e. by (table, column), exactly as in the dataclass. -/
structure ColumnRef where
  table : Option String
  column : String
deriving DecidableEq, Repr

/-- models.py LineageMapping. -/
structure LineageMapping where
  output_column : String
  sources : List ColumnRef
  reason : String
deriving DecidableEq, Repr

/-- A note dict `{"ambiguous_column": name}` attached to a column's lineage. -/
structure NoteEntry where
  ambiguous_column : String
deriving DecidableEq, Repr

/-- models.py LineageData. -/
structure LineageData where
  lineage_type : String
  inputs : List ColumnRef
  mapping : List LineageMapping
  functions : List String
  literals : List String
  notes : List NoteEntry
deriving DecidableEq, Repr

/-- models.py Dependency. -/
structure Dependency where
  table : String
  columns : List String
deriving DecidableEq, Repr

/-- models.py OutputColumn. -/
structure OutputColumn where
  name : String
  expression : String
  lineage : LineageData
  dependencies : List Dependency
deriving DecidableEq, Repr

/-- Generic first-seen deduplication by a key function, carrying the set of
already-seen keys, mirroring the `seen`-set loops used throughout the code
(`_unique_column_refs`, `merge_sources`, `ensure_unique_columns`). -/
def dedupByKey {α κ : Type} [DecidableEq κ] (key : α → κ) :
    List α → List κ → List α
  | [], _ => []
  | x :: xs, seen =>
    if key x ∈ seen then dedupByKey key xs seen
    else x :: dedupByKey key xs (key x :: seen)

/-- lineage_builder.py _unique_column_refs: deduplicate column references by
(table, column) while preserving first-seen order. -/
def uniqueColumnRefs (inputs : List ColumnRef) : List ColumnRef :=
  dedupByKey (fun c => (c.table, c.column)) inputs []

/-- context.py SourceInfo. `output_inputs` is the dict mapping an output
column name of a cte/subquery to the ColumnRefs it derives from, modelled as
an association list with unique keys (Python dict). -/
structure SourceInfo where
  name : String
  alias_ : String
  database : String
  source_type : String
  output_inputs : List (String × List ColumnRef)
deriving DecidableEq, Repr

/-- context.py SourceInfo.identifier: `self.alias or self.name`
(empty string is falsy). -/
def SourceInfo.identifier (s : SourceInfo) : String :=
  if s.alias_ = "" then s.name else s.alias_

/-- Python dict get on an association list with unique keys. -/
def dictGet {κ β : Type} [DecidableEq κ] (m : List (κ × β)) (k : κ) :
    Option β :=
  (m.find? (fun p => p.1 = k)).map (·.2)

/-- Python dict assignment `m[k] = v`: overwrite in place if the key exists
(keeping its original insertion position), otherwise append. -/
def dictSet {κ β : Type} [DecidableEq κ] (m : List (κ × β)) (k : κ) (v : β) :
    List (κ × β) :=
  if m.any (fun p => p.1 = k) then
    m.map (fun p => if p.1 = k then (k, v) else p)
  else m ++ [(k, v)]

/-- context.py AnalysisContext (as constructed by build_context). -/
structure AnalysisContext where
  sources : List SourceInfo
  report_sources : List SourceInfo
  dialect : String
  active_identifiers : List String
deriving DecidableEq, Repr

/-- context.py AnalysisContext.resolve_source: first source in
`sources + report_sources` whose identifier matches. -/
def AnalysisContext.resolveSource (ctx : AnalysisContext) (name : String) :
    Option SourceInfo :=
  (ctx.sources ++ ctx.report_sources).find? (fun s => s.identifier = name)

/-- context.py AnalysisContext.candidate_sources: the non-CTE entries of
`sources` when any exist, otherwise all of `sources`. -/
def AnalysisContext.candidateSources (ctx : AnalysisContext) :
    List SourceInfo :=
  let nonCte := ctx.sources.filter (fun s => s.source_type ≠ "cte")
  if nonCte.isEmpty then ctx.sources else nonCte

/-- context.py AnalysisContext.resolve_unqualified_column: the single
candidate source if exactly one exists. -/
def AnalysisContext.resolveUnqualifiedColumn (ctx : AnalysisContext) :
    Option SourceInfo :=
  match ctx.candidateSources with
  | [s] => some s
  | _ => none

/-- context.py merge_sources: deduplicate by (type, name, alias),
preserving first-seen order. -/
def mergeSources (sources : List SourceInfo) : List SourceInfo :=
  dedupByKey (fun s => (s.source_type, s.name, s.alias_)) sources []

/-- A column-reference leaf of the external parser's AST (sqlglot
exp.Column): `table` is the qualifier, the empty string when the reference
is unqualified (sqlglot's convention, tested by truthiness in the code). -/
structure ColumnLeaf where
  table : String
  name : String
deriving DecidableEq, Repr

/-- The enumerations the lineage code consumes from a parsed expression via
the external parser's find_all: column-reference leaves, function names
(already lowercased as lineage_builder._function_name does) and literal
texts, each in document order. -/
structure ExprNode where
  columns : List ColumnLeaf
  functions : List String
  literals : List String
deriving DecidableEq, Repr

/-- lineage_builder.py _resolve_column_ref: qualified references resolve
directly; unqualified ones go through resolve_unqualified_column, emitting
an ambiguous_column note and a null-table ColumnRef when that fails. -/
def resolveColumnRef (col : ColumnLeaf) (ctx : AnalysisContext) :
    List ColumnRef × List NoteEntry :=
  if col.table ≠ "" then
    ([{ table := some col.table, column := col.name }], [])
  else
    match ctx.resolveUnqualifiedColumn with
    | none =>
      ([{ table := none, column := col.name }], [⟨col.name⟩])
    | some s =>
      ([{ table := some s.identifier, column := col.name }], [])

/-- lineage_builder.py _expand_cte_or_subquery_inputs. The Python function
recurses on the nested references of a cte/subquery hop; the recursion is
bounded here by an explicit fuel argument (the Python call stack), which is
exhausted only on output_inputs graphs deeper than the fuel. -/
def expandInputs (fuel : Nat) (c : ColumnRef) (ctx : AnalysisContext) :
    List ColumnRef :=
  match fuel with
  | 0 => [c]
  | fuel + 1 =>
    match c.table with
    | none => [c]
    | some t =>
      match ctx.resolveSource t with
      | none => [c]
      | some src =>
        if src.source_type = "cte" ∨ src.source_type = "subquery" then
          match dictGet src.output_inputs c.column with
          | some (e :: es) =>
            c :: (e :: es).flatMap (fun i => expandInputs fuel i ctx)
          | _ => [c]
        else [c]

/-- Lexicographic code-point order on character lists (the order Python
sorted uses on str). -/
def charListLt : List Char → List Char → Bool
  | [], [] => false
  | [], _ :: _ => true
  | _ :: _, [] => false
  | a :: as, b :: bs =>
    if a.toNat < b.toNat then true
    else if b.toNat < a.toNat then false
    else charListLt as bs

/-- Python string comparison (code-point lexicographic). -/
def strLt (a b : String) : Bool := charListLt a.data b.data

/-- Ordered insertion of a string into a sorted list (code-point order,
as Python sorted on str). -/
def insertSortedStr (x : String) : List String → List String
  | [] => [x]
  | y :: ys => if strLt x y then x :: y :: ys else y :: insertSortedStr x ys

/-- Python `sorted(...)` over strings, as an insertion sort. -/
def sortedStrings (l : List String) : List String :=
  l.foldr insertSortedStr []

/-- Python `sorted(set(...))` over strings. -/
def sortedDedupStr (l : List String) : List String :=
  sortedStrings (dedupByKey id l [])

/-- lineage_builder.py extract_functions: the lowercased function names of
the expression; under the mysql dialect a present `coalesce` additionally
surfaces `ifnull`; the result is `sorted(set(...))`. -/
def extractFunctions (e : ExprNode) (dialect : String) : List String :=
  let functions := e.functions
  let functions :=
    if functions.contains "coalesce" ∧ dialect = "mysql" then
      functions ++ ["ifnull"]
    else functions
  sortedDedupStr functions

/-- lineage_builder.py _extract_literals: literal texts in document order. -/
def extractLiterals (e : ExprNode) : List String :=
  e.literals

/-- Python truthiness of an optional string (None and "" are falsy). -/
def truthyStr : Option String → Bool
  | none => false
  | some s => s ≠ ""

/-- lineage_builder.py extract_lineage_data: resolve every column leaf,
expand each resolved reference, concatenate, deduplicate by (table, column),
and assemble the LineageData (mapping sources are the inputs with a known
table). -/
def extractLineageData (fuel : Nat) (e : ExprNode) (outputName : String)
    (ctx : AnalysisContext) (lineageType mappingReason : String) :
    LineageData :=
  let inputs :=
    e.columns.flatMap (fun col =>
      (resolveColumnRef col ctx).1.flatMap (fun i => expandInputs fuel i ctx))
  let notes := e.columns.flatMap (fun col => (resolveColumnRef col ctx).2)
  let inputs := uniqueColumnRefs inputs
  let mappingSources := inputs.filter (fun i => i.table.isSome)
  { lineage_type := lineageType
    inputs := inputs
    mapping := [{ output_column := outputName, sources := mappingSources,
                  reason := mappingReason }]
    functions := extractFunctions e ctx.dialect
    literals := extractLiterals e
    notes := notes }

/-- One step of the grouping loop in build_dependencies: attribute `c` to
table key `t` unless already recorded (defaultdict + membership test). -/
def groupInsert (g : List (String × List String)) (t c : String) :
    List (String × List String) :=
  match dictGet g t with
  | none => g ++ [(t, [c])]
  | some cols =>
    if c ∈ cols then g
    else g.map (fun p => if p.1 = t then (t, cols ++ [c]) else p)

/-- `grouped.setdefault(name, [])`: add an empty group when absent. -/
def groupSetdefault (g : List (String × List String)) (t : String) :
    List (String × List String) :=
  match dictGet g t with
  | none => g ++ [(t, [])]
  | some _ => g

/-- lineage_builder.py build_dependencies: group inputs by base table,
skipping null tables and — when a context is given — inputs whose table
resolves to a cte/subquery SourceInfo (using the resolved source's name as
the group key otherwise); then, when a context is given, ensure an entry for
every table-typed report source. -/
def buildDependencies (inputs : List ColumnRef)
    (ctx : Option AnalysisContext) : List Dependency :=
  let grouped := inputs.foldl
    (fun g item =>
      match item.table with
      | none => g
      | some t =>
        match ctx with
        | none => groupInsert g t item.column
        | some c =>
          match c.resolveSource t with
          | none => groupInsert g t item.column
          | some src =>
            if src.source_type = "cte" ∨ src.source_type = "subquery" then g
            else
              groupInsert g (if src.name = "" then t else src.name)
                item.column)
    []
  let grouped :=
    match ctx with
    | none => grouped
    | some c =>
      c.report_sources.foldl
        (fun g (src : SourceInfo) =>
          if src.source_type = "table" then groupSetdefault g src.name else g)
        grouped
  grouped.map (fun (p : String × List String) =>
    { table := p.1, columns := p.2 })

/-- lineage_builder.py determine_lineage_type. The first flag models the
`isinstance(expression, exp.Alias) and isinstance(expression.this,
exp.Column)` test on the external parser's AST. -/
def determineLineageType (isAliasOfColumn : Bool) (functions : List String)
    (isUnion : Bool) : String × String :=
  if isUnion then ("union", "union")
  else if isAliasOfColumn then ("column_rename", "alias")
  else if functions.contains "coalesce" ∧ ¬ functions.contains "ifnull" then
    ("expression", "coalesce")
  else ("expression", "expression")

/-- A serialized source entry as reported by _analyze_select
(`{"type", "name", "database", "alias"}`), also the shape produced by
collectors.table_identifier for join right-hand sides. -/
structure SourceDict where
  type : String
  name : String
  database : String
  alias_ : String
deriving DecidableEq, Repr

/-- Serialization of a SourceInfo into the report dict used in
_analyze_select's `sources` list. -/
def SourceInfo.toDict (s : SourceInfo) : SourceDict :=
  { type := s.source_type, name := s.name, database := s.database,
    alias_ := s.alias_ }

/-- collectors.py collect_joins entry:
`{"join_type", "right": table dict or None, "condition"}`. -/
structure JoinInfo where
  join_type : String
  right : Option SourceDict
  condition : String
deriving DecidableEq, Repr

/-- The per-branch analysis dictionary consumed by _analyze_union: its
`sources`, `output.columns` and `joins` entries. The recursive `unions` and
`subqueries` reporting payloads carried alongside are not needed by any
function modelled here and are omitted. -/
structure BranchAnalysis where
  sources : List SourceDict
  columns : List OutputColumn
  joins : List JoinInfo
deriving DecidableEq, Repr

/-- The per-position merge inside analyzer._analyze_union: concatenate the
two branches' lineage inputs (right absent beyond its length), filter the
truthy-table ones as mapping sources, rebuild dependencies without a
context, and emit a union-typed LineageData with empty functions, literals
and notes. -/
def mergeUnionColumn (leftCol : OutputColumn) (rightCol : Option OutputColumn) :
    OutputColumn :=
  let inputs := leftCol.lineage.inputs ++
    (match rightCol with
     | some rc => rc.lineage.inputs
     | none => [])
  let mappingSources := inputs.filter (fun i => truthyStr i.table)
  let dependencies := buildDependencies inputs none
  { name := leftCol.name
    expression := leftCol.expression
    lineage :=
      { lineage_type := "union"
        inputs := inputs
        mapping := [{ output_column := leftCol.name,
                      sources := mappingSources, reason := "union" }]
        functions := []
        literals := []
        notes := [] }
    dependencies := dependencies }

/-- analyzer.py _analyze_union, as a function of the two recursively
obtained branch analyses: iterate over the left branch's output columns,
pairing each with the same-position right column when present, and
concatenate the reporting lists from both branches. -/
def analyzeUnion (left right : BranchAnalysis) : BranchAnalysis :=
  { sources := left.sources ++ right.sources
    columns := left.columns.enum.map
      (fun (p : Nat × OutputColumn) =>
        mergeUnionColumn p.2 (right.columns.get? p.1))
    joins := left.joins ++ right.joins }

/-- context_builder.py _output_inputs_from_analysis: map each output column
name to its lineage inputs (a dict build, so duplicate names overwrite). -/
def outputInputsFromAnalysis (analysis : BranchAnalysis) :
    List (String × List ColumnRef) :=
  analysis.columns.foldl
    (fun m col => dictSet m col.name col.lineage.inputs) []

/-- context.py build_source_info_from_subquery. -/
def buildSourceInfoFromSubquery (alias_ : String)
    (output_inputs : List (String × List ColumnRef)) : SourceInfo :=
  { name := alias_, alias_ := alias_, database := "",
    source_type := "subquery", output_inputs := output_inputs }

/-- context.py build_source_info_from_cte. -/
def buildSourceInfoFromCte (name : String)
    (output_inputs : List (String × List ColumnRef)) : SourceInfo :=
  { name := name, alias_ := name, database := "",
    source_type := "cte", output_inputs := output_inputs }

/-- A CTE declaration as seen by context_builder._collect_cte_sources: its
name and the recursive analysis of its body (the recursive
analyze_expression call is the external input here). -/
structure CteDecl where
  name : String
  analysis : BranchAnalysis
deriving DecidableEq, Repr

/-- An aliased subquery as seen by _collect_subquery_sources. -/
structure SubqueryDecl where
  alias_ : String
  analysis : BranchAnalysis
deriving DecidableEq, Repr

/-- The table-typed report sources of a nested analysis, re-wrapped as
SourceInfo for report_sources (shared tail of _collect_cte_sources and
_collect_subquery_sources). -/
def nestedTableReports (analysis : BranchAnalysis) : List SourceInfo :=
  (analysis.sources.filter (fun s => s.type = "table")).map
    (fun s =>
      { name := s.name, alias_ := s.alias_, database := s.database,
        source_type := "table", output_inputs := [] })

/-- context_builder.py _collect_cte_sources: one cte SourceInfo per CTE in
declaration order for both lists, plus the nested base tables of each CTE's
analysis in report_sources only. -/
def collectCteSources (ctes : List CteDecl) :
    List SourceInfo × List SourceInfo :=
  ctes.foldl
    (fun (acc : List SourceInfo × List SourceInfo) cte =>
      let cteSource := buildSourceInfoFromCte cte.name
        (outputInputsFromAnalysis cte.analysis)
      (acc.1 ++ [cteSource],
       acc.2 ++ [cteSource] ++ nestedTableReports cte.analysis))
    ([], [])

/-- context_builder.py _collect_subquery_sources: one subquery SourceInfo
per aliased subquery (alias-less ones are skipped), plus nested base tables
in report_sources only. -/
def collectSubquerySources (subqueries : List SubqueryDecl) :
    List SourceInfo × List SourceInfo :=
  subqueries.foldl
    (fun (acc : List SourceInfo × List SourceInfo) sq =>
      if sq.alias_ = "" then acc
      else
        let sqSource := buildSourceInfoFromSubquery sq.alias_
          (outputInputsFromAnalysis sq.analysis)
        (acc.1 ++ [sqSource],
         acc.2 ++ [sqSource] ++ nestedTableReports sq.analysis))
    ([], [])

/-- context_builder.py build_context, as a function of the collected CTE
declarations, aliased subqueries and immediate FROM/JOIN tables (the parts
read off the external AST): assemble sources and report_sources, letting a
CTE shadow a like-named immediate table, and deduplicate both lists. -/
def buildContext (ctes : List CteDecl) (subqueries : List SubqueryDecl)
    (immediateTables : List SourceInfo) (dialect : String) :
    AnalysisContext :=
  let ctePair := collectCteSources ctes
  let sqPair := collectSubquerySources subqueries
  let cteMap := ctePair.1.foldl
    (fun (m : List (String × SourceInfo)) src =>
      dictSet m src.identifier src) []
  let step := immediateTables.foldl
    (fun (acc : List SourceInfo × List SourceInfo × List String) table =>
      let ident := table.identifier
      match dictGet cteMap ident with
      | some cteSrc =>
        (acc.1 ++ [cteSrc], acc.2.1 ++ [cteSrc], acc.2.2 ++ [ident])
      | none =>
        (acc.1 ++ [table], acc.2.1 ++ [table], acc.2.2 ++ [ident]))
    ([], [], [])
  { sources := mergeSources (ctePair.1 ++ sqPair.1 ++ step.1)
    report_sources := mergeSources (ctePair.2 ++ sqPair.2 ++ step.2.1)
    dialect := dialect
    active_identifiers := step.2.2 }

/-- graph_utils.py ResolvedTable. -/
structure ResolvedTable where
  full_name : String
  source_type : String
  alias_ : String
deriving DecidableEq, Repr

/-- graph_utils.py table_id. -/
def tableId (full_name : String) : String := "table:" ++ full_name

/-- graph_utils.py cte_id. -/
def cteId (name : String) : String := "cte:" ++ name

/-- graph_utils.py subquery_id. -/
def subqueryId (statementIndex index : Nat) : String :=
  "subquery:" ++ toString statementIndex ++ ":" ++ toString index

/-- graph_utils.py column_id. -/
def columnId (tableFullName column : String) : String :=
  "column:" ++ tableFullName ++ "." ++ column

/-- Stands in for graph_utils.expression_id's truncated sha1 hex digest of
the expression text (hashlib is external); an injective placeholder whose
exact value no claim depends on. -/
def sha1Hex8 (s : String) : String := s

/-- graph_utils.py expression_id. -/
def expressionId (statementIndex : Nat) (outputName expression : String) :
    String :=
  "expr:" ++ toString statementIndex ++ ":" ++ outputName ++ ":" ++
    sha1Hex8 expression

/-- Split a character list at the first occurrence of a separator
character (Python s.split(sep, 1) for a one-character separator). -/
def splitCharsOnce (sep : Char) : List Char → Option (List Char × List Char)
  | [] => none
  | c :: cs =>
    if c = sep then some ([], cs)
    else
      match splitCharsOnce sep cs with
      | some pq => some (c :: pq.1, pq.2)
      | none => none

/-- graph_utils.py split_table_name: split at the first dot, as Python
full_name.split(".", 1). -/
def splitTableName (full_name : String) : String × String :=
  match splitCharsOnce '.' full_name.data with
  | some pq => (String.mk pq.1, String.mk pq.2)
  | none => ("", full_name)

/-- Lookup in a Python dict built by assigning every element of `ss` under
`key` in order (so the last assignment wins). -/
def lastBy {α : Type} (key : α → String) (ss : List α) (k : String) :
    Option α :=
  ss.reverse.find? (fun s => key s = k)

/-- graph_utils.py resolve_table_reference: try the alias map, then the
name map (both last-wins dicts over the statement's source dicts); a missing
or unknown reference yields a best-effort ResolvedTable plus a warning
message. -/
def resolveTableReference (tableRef : Option String)
    (sources : List SourceDict) : ResolvedTable × Option String :=
  match tableRef with
  | none =>
    ({ full_name := "unknown", source_type := "unknown", alias_ := "" },
     some "Missing table reference")
  | some t =>
    if t = "" then
      ({ full_name := "unknown", source_type := "unknown", alias_ := "" },
       some "Missing table reference")
    else
      match lastBy (fun s => s.alias_) sources t with
      | some s =>
        ({ full_name := s.name, source_type := s.type, alias_ := s.alias_ },
         none)
      | none =>
        match lastBy (fun s => s.name) sources t with
        | some s =>
          ({ full_name := s.name, source_type := s.type, alias_ := s.alias_ },
           none)
        | none =>
          ({ full_name := t, source_type := "unknown", alias_ := "" },
           some ("Unresolved table reference: " ++ t))

/-- graph_utils.py ensure_unique_columns. -/
def ensureUniqueColumns (columns : List String) : List String :=
  dedupByKey id columns []

/-- A graph node; the Python node dicts carry different key sets per node
kind, modelled here as one structure with neutral defaults for the keys a
kind does not set. -/
structure Node where
  id : String := ""
  type : String := ""
  name : String := ""
  database : String := ""
  schema : String := ""
  full_name : String := ""
  statement_index : Nat := 0
  description : String := ""
  table_id : String := ""
  sql : String := ""
  literals : List String := []
  columns : List String := []
deriving DecidableEq, Repr

/-- Edge details; the Python detail dicts carry different key sets per edge
kind, modelled as one structure with neutral defaults. -/
structure EdgeDetails where
  function : String := ""
  confidence : String := ""
  join_condition : String := ""
  join_type : String := ""
  union_type : String := ""
  columns_count : Nat := 0
  via : List String := []
  how : String := ""
  expression_sql : String := ""
deriving DecidableEq, Repr

/-- A graph edge (graph.py _GraphBuilder.add_edge entry). -/
structure Edge where
  id : String
  type : String
  from_ : String
  to_ : String
  description : String
  statement_index : Nat
  details : EdgeDetails
deriving DecidableEq, Repr

/-- A graph warning entry. -/
structure Warning where
  code : String
  message : String
  statement_index : Nat
  context : String
deriving DecidableEq, Repr

/-- graph.py _GraphBuilder: the node map (insertion-ordered,
first-write-wins by id), the append-only edge list with its sequential
counter, and the warnings and errors of the enclosing graph dict. -/
structure GraphBuilder where
  nodes : List Node := []
  edges : List Edge := []
  edgeCount : Nat := 0
  warnings : List Warning := []
  errors : List String := []
deriving DecidableEq, Repr

/-- _GraphBuilder.add_node: a no-op when a node with the same id is already
registered (existing attributes win). -/
def addNode (st : GraphBuilder) (n : Node) : GraphBuilder :=
  if st.nodes.any (fun m => m.id = n.id) then st
  else { st with nodes := st.nodes ++ [n] }

/-- _GraphBuilder.add_edge: sequential edge ids. -/
def addEdge (st : GraphBuilder) (edgeType fromNode toNode description : String)
    (statementIndex : Nat) (details : EdgeDetails) : GraphBuilder :=
  let c := st.edgeCount + 1
  { st with
    edgeCount := c
    edges := st.edges ++
      [{ id := "edge:" ++ edgeType ++ ":" ++ toString c, type := edgeType,
         from_ := fromNode, to_ := toNode, description := description,
         statement_index := statementIndex, details := details }] }

/-- _GraphBuilder.add_warning. -/
def addWarning (st : GraphBuilder) (code message : String)
    (statementIndex : Nat) (context : String) : GraphBuilder :=
  { st with warnings := st.warnings ++
      [{ code := code, message := message,
         statement_index := statementIndex, context := context }] }

/-- Stands in for Python str() applied to an input-ref dict when recorded as
warning context (textual detail only). -/
def columnRefContext (c : ColumnRef) : String :=
  "ColumnRef(table=" ++
    (match c.table with | none => "None" | some t => t) ++
    ", column=" ++ c.column ++ ")"

/-- The statement target dict `{"type", "name", "database", "raw"}` built by
analyzer._target_from_table. -/
structure TargetDict where
  name : String
  database : String
  raw : String
deriving DecidableEq, Repr

/-- A serialized statement analysis as consumed by the graph builder:
`index`, `target`, `output.columns`, `sources`, `joins`, plus the length of
the `subqueries` reporting list and whether `unions` is nonempty (the only
facts graph.py reads from those two lists). -/
structure Stmt where
  index : Nat
  statement_type : String := ""
  target : Option TargetDict := none
  columns : List OutputColumn := []
  sources : List SourceDict := []
  joins : List JoinInfo := []
  subqueriesCount : Nat := 0
  hasUnions : Bool := false
deriving DecidableEq, Repr

/-- graph.py _target_table_from_statement output. -/
structure TargetTable where
  full_name : String
  database : String
  name : String
  schema : String
deriving DecidableEq, Repr

/-- graph.py _target_table_from_statement. -/
def targetTableFromStatement (stmt : Stmt) : Option TargetTable :=
  match stmt.target with
  | none => none
  | some t =>
    let fullName := if t.database = "" then t.name
      else t.database ++ "." ++ t.name
    some { full_name := fullName, database := t.database, name := t.name,
           schema := t.database }

/-- graph.py _build_subquery_map: number the subquery-typed sources in order
and map each alias to its positional node id. -/
def buildSubqueryMap (statementIndex : Nat) (sources : List SourceDict) :
    List (String × String) :=
  (sources.foldl
    (fun (acc : List (String × String) × Nat) s =>
      if s.type = "subquery" then
        let c := acc.2 + 1
        (dictSet acc.1 s.name (subqueryId statementIndex c), c)
      else acc)
    ([], 0)).1

/-- graph.py _resolve_with_subqueries: resolve, then remap a subquery-typed
result onto its positional node id (or a name-keyed fallback id). -/
def resolveWithSubqueries (tableRef : Option String)
    (sources : List SourceDict) (statementIndex : Nat)
    (subqueryMap : List (String × String)) : ResolvedTable × Option String :=
  let rw := resolveTableReference tableRef sources
  let resolved := rw.1
  if resolved.source_type = "subquery" then
    let alias_ := resolved.full_name
    match dictGet subqueryMap alias_ with
    | some mapped =>
      if mapped = "" then
        ({ full_name := "subquery:" ++ toString statementIndex ++ ":" ++
             alias_,
           source_type := resolved.source_type, alias_ := resolved.alias_ },
         rw.2)
      else
        ({ full_name := mapped, source_type := resolved.source_type,
           alias_ := resolved.alias_ }, rw.2)
    | none =>
      ({ full_name := "subquery:" ++ toString statementIndex ++ ":" ++ alias_,
         source_type := resolved.source_type, alias_ := resolved.alias_ },
       rw.2)
  else rw

/-- graph.py _resolved_full_name: cte-owned columns live under a
"cte."-prefixed table name. -/
def resolvedFullName (resolved : ResolvedTable) : String :=
  if resolved.source_type = "cte" then "cte." ++ resolved.full_name
  else resolved.full_name

/-- graph.py _table_node_id_from_resolved. -/
def tableNodeIdFromResolved (resolved : ResolvedTable) : String :=
  if resolved.source_type = "cte" then cteId resolved.full_name
  else if resolved.source_type = "subquery" then resolved.full_name
  else tableId resolved.full_name

/-- graph.py _table_node_id_from_source_name. -/
def tableNodeIdFromSourceName (sourceName : String)
    (sources : List SourceDict) (statementIndex : Nat)
    (subqueryMap : List (String × String)) : String :=
  tableNodeIdFromResolved
    (resolveWithSubqueries (some sourceName) sources statementIndex
      subqueryMap).1

/-- graph.py _add_source_nodes: one node per source dict, shaped by its
type. -/
def addSourceNodes (st : GraphBuilder) (sources : List SourceDict)
    (statementIndex : Nat) (subqueryMap : List (String × String)) :
    GraphBuilder :=
  sources.foldl
    (fun b s =>
      if s.type = "table" then
        let split := splitTableName s.name
        addNode b
          { id := tableId s.name, type := "table", name := split.2,
            database := split.1, schema := split.1, full_name := s.name,
            statement_index := statementIndex,
            description := "Source table" }
      else if s.type = "cte" then
        addNode b
          { id := cteId s.name, type := "cte", name := s.name,
            statement_index := statementIndex,
            description := "Common table expression" }
      else if s.type = "subquery" then
        let nodeId :=
          match dictGet subqueryMap s.name with
          | some m => m
          | none =>
            "subquery:" ++ toString statementIndex ++ ":" ++ s.name
        addNode b
          { id := nodeId, type := "subquery", name := s.name,
            statement_index := statementIndex,
            description := "Subquery source" }
      else
        let nm := if s.name = "" then "unknown" else s.name
        addNode b
          { id := tableId nm, type := "table", name := nm,
            database := "", schema := "", full_name := nm,
            statement_index := statementIndex,
            description := "Unknown source" })
    st

/-- graph.py _add_table_node. -/
def addTableNode (st : GraphBuilder) (table : TargetTable)
    (statementIndex : Nat) (tableType description : String) : GraphBuilder :=
  let nodeId :=
    if tableType = "cte" then cteId table.name
    else if tableType = "subquery" then
      "subquery:" ++ toString statementIndex ++ ":" ++ table.name
    else tableId table.full_name
  addNode st
    { id := nodeId, type := tableType, name := table.name,
      database := table.database, schema := table.schema,
      full_name := table.full_name, statement_index := statementIndex,
      description := description }

/-- The per-source aggregation record of _build_tables_only_graph: the
dependency map value `{"count", "reasons"}` (reasons as an insertion-ordered
deduplicated list standing for the Python set, sorted on emission). -/
def depInsert (m : List (String × Nat × List String)) (k reason : String) :
    List (String × Nat × List String) :=
  match dictGet m k with
  | none => m ++ [(k, 1, [reason])]
  | some v =>
    m.map (fun p =>
      if p.1 = k then
        (k, v.1 + 1, if reason ∈ v.2 then v.2 else v.2 ++ [reason])
      else p)

/-- The warning-and-aggregation pass of _build_tables_only_graph over one
statement's output columns. -/
def tablesOnlyDepPass (stb : GraphBuilder)
    (columns : List OutputColumn) (sources : List SourceDict)
    (statementIndex : Nat) (subqueryMap : List (String × String)) :
    GraphBuilder × List (String × Nat × List String) :=
  columns.foldl
    (fun (acc : GraphBuilder × List (String × Nat × List String)) col =>
      col.lineage.inputs.foldl
        (fun (acc2 : GraphBuilder × List (String × Nat × List String)) inp =>
          let rw := resolveWithSubqueries inp.table sources statementIndex
            subqueryMap
          let b :=
            match rw.2 with
            | some w =>
              addWarning acc2.1 "unresolved_table" w statementIndex
                (columnRefContext inp)
            | none => acc2.1
          (b, depInsert acc2.2 rw.1.full_name col.lineage.lineage_type))
        acc)
    (stb, [])

/-- graph.py _build_tables_only_graph, one statement: source and target
nodes, then (only when a target exists) the per-source aggregation and one
table_lineage edge per aggregated source. -/
def processTablesOnlyStatement (st : GraphBuilder) (stmt : Stmt) :
    GraphBuilder :=
  let statementIndex := stmt.index
  let sources := stmt.sources
  let subqueryMap := buildSubqueryMap statementIndex sources
  let targetTable := targetTableFromStatement stmt
  let st := addSourceNodes st sources statementIndex subqueryMap
  let st :=
    match targetTable with
    | some t => addTableNode st t statementIndex "table" "Target table"
    | none => st
  match targetTable with
  | none => st
  | some tgt =>
    let pass := tablesOnlyDepPass st stmt.columns sources statementIndex
      subqueryMap
    pass.2.foldl
      (fun b (e : String × Nat × List String) =>
        addEdge b "table_lineage"
          (tableNodeIdFromSourceName e.1 sources statementIndex subqueryMap)
          (tableId tgt.full_name) "Table-level lineage" statementIndex
          { columns_count := e.2.1, via := sortedStrings e.2.2 })
      pass.1

/-- graph.py _build_tables_only_graph over a statement list. -/
def buildTablesOnlyGraph (st : GraphBuilder) (statements : List Stmt) :
    GraphBuilder :=
  statements.foldl processTablesOnlyStatement st

/-- Python str.strip(): drop whitespace from both ends. -/
def strTrim (s : String) : String :=
  String.mk
    (((s.data.dropWhile Char.isWhitespace).reverse.dropWhile
      Char.isWhitespace).reverse)

/-- Python str.upper() over the character list. -/
def strToUpper (s : String) : String :=
  String.mk (s.data.map Char.toUpper)

/-- Python str.lower() over the character list. -/
def strToLower (s : String) : String :=
  String.mk (s.data.map Char.toLower)

/-- Substring containment, as Python `sub in s`. -/
def strContainsSub (s sub : String) : Bool :=
  decide (List.IsInfix sub.data s.data)

/-- graph.py _requires_expression_node: false for direct/column_rename
lineage, otherwise a cheap textual heuristic over functions, literals,
parentheses and a CASE keyword. -/
def requiresExpressionNode (outputColumn : OutputColumn) : Bool :=
  let lineage := outputColumn.lineage
  if lineage.lineage_type = "direct" ∨ lineage.lineage_type = "column_rename"
  then false
  else
    ¬ lineage.functions.isEmpty ∨ ¬ lineage.literals.isEmpty ∨
      strContainsSub outputColumn.expression "(" ∨
      strContainsSub (strToUpper outputColumn.expression) "CASE"

/-- graph.py _add_output_column_graph: the output column node under the
target table (or the synthetic unknown table), optionally an expression
node with produces/uses edges, and per resolved input a column node with
contains and lineage edges. -/
def addOutputColumnGraph (st : GraphBuilder) (outputColumn : OutputColumn)
    (statementIndex : Nat) (targetTable : Option TargetTable)
    (sources : List SourceDict) (subqueryMap : List (String × String)) :
    GraphBuilder :=
  let lineage := outputColumn.lineage
  let outputName := outputColumn.name
  let targetFull :=
    match targetTable with
    | some t => t.full_name
    | none => "unknown"
  let st :=
    if targetFull = "unknown" then
      addNode st
        { id := tableId "unknown", type := "table", name := "unknown",
          database := "", schema := "", full_name := "unknown",
          statement_index := statementIndex,
          description := "Unknown target table" }
    else st
  let outputColId := columnId targetFull outputName
  let st := addNode st
    { id := outputColId, type := "column", table_id := tableId targetFull,
      name := outputName, description := "Output column",
      literals := lineage.literals, statement_index := statementIndex }
  let st := addEdge st "contains" (tableId targetFull) outputColId
    "Table contains column" statementIndex {}
  let expressionNodeId :=
    if requiresExpressionNode outputColumn then
      some (expressionId statementIndex outputName outputColumn.expression)
    else none
  let st :=
    match expressionNodeId with
    | some exprId =>
      let st := addNode st
        { id := exprId, type := "expression", sql := outputColumn.expression,
          description := "Expression producing output column",
          statement_index := statementIndex }
      addEdge st "produces" exprId outputColId
        "Expression produces output column" statementIndex
        { function := lineage.lineage_type }
    | none => st
  lineage.inputs.foldl
    (fun b inputRef =>
      let rw := resolveWithSubqueries inputRef.table sources statementIndex
        subqueryMap
      let b :=
        match rw.2 with
        | some w =>
          addWarning b "unresolved_table" w statementIndex
            (columnRefContext inputRef)
        | none => b
      let inputTableName := resolvedFullName rw.1
      let inputColId := columnId inputTableName inputRef.column
      let b := addNode b
        { id := inputColId, type := "column",
          table_id := tableNodeIdFromResolved rw.1, name := inputRef.column,
          description := "Input column", statement_index := statementIndex }
      let b := addEdge b "contains" (tableNodeIdFromResolved rw.1) inputColId
        "Table contains column" statementIndex {}
      let b := addEdge b "lineage" inputColId outputColId
        "Column-level lineage" statementIndex { confidence := "explicit" }
      match expressionNodeId with
      | some exprId =>
        addEdge b "uses" inputColId exprId "Expression uses column"
          statementIndex { function := lineage.lineage_type }
      | none => b)
    st

/-- graph.py _add_join_edges: one joins_with edge per join whose right side
is a table dict, from the first table-typed source of the statement (or the
unknown placeholder) to the joined relation. -/
def addJoinEdges (st : GraphBuilder) (sources : List SourceDict)
    (stmt : Stmt) (statementIndex : Nat)
    (subqueryMap : List (String × String)) : GraphBuilder :=
  let sourceTables := sources.filter (fun s => s.type = "table")
  let leftSource := sourceTables.head?
  stmt.joins.foldl
    (fun b join =>
      match join.right with
      | none => b
      | some right =>
        let rightName := right.name
        let rightId := tableNodeIdFromSourceName rightName sources
          statementIndex subqueryMap
        let leftName :=
          match leftSource with
          | some s => s.name
          | none => "unknown"
        let leftId := tableNodeIdFromSourceName leftName sources
          statementIndex subqueryMap
        addEdge b "joins_with" leftId rightId "Tables joined" statementIndex
          { join_condition := join.condition, join_type := join.join_type })
    st

/-- graph.py _add_union_edges: for statements carrying unions and a target,
one union_with edge from each table-typed source to the target. -/
def addUnionEdges (st : GraphBuilder) (sources : List SourceDict)
    (stmt : Stmt) (statementIndex : Nat)
    (targetTable : Option TargetTable) : GraphBuilder :=
  if ¬ stmt.hasUnions then st
  else
    match targetTable with
    | none => st
    | some tgt =>
      sources.foldl
        (fun b s =>
          if s.type ≠ "table" then b
          else
            let sourceId := tableId (if s.name = "" then "unknown" else s.name)
            addEdge b "union_with" sourceId (tableId tgt.full_name)
              "Union input to target" statementIndex
              { union_type := "union" })
        st

/-- graph.py _build_full_graph, one statement. -/
def processFullStatement (st : GraphBuilder) (stmt : Stmt) : GraphBuilder :=
  let statementIndex := stmt.index
  let sources := stmt.sources
  let subqueryMap := buildSubqueryMap statementIndex sources
  let targetTable := targetTableFromStatement stmt
  let st := addSourceNodes st sources statementIndex subqueryMap
  let st :=
    match targetTable with
    | some t => addTableNode st t statementIndex "table" "Target table"
    | none => st
  let st :=
    (List.range stmt.subqueriesCount).foldl
      (fun b k =>
        let nodeId := subqueryId statementIndex (k + 1)
        addNode b
          { id := nodeId, type := "subquery",
            name := "subquery_" ++ toString statementIndex ++ "_" ++
              toString (k + 1),
            statement_index := statementIndex,
            description := "Subquery in statement" })
      st
  let st := stmt.columns.foldl
    (fun b col =>
      addOutputColumnGraph b col statementIndex targetTable sources
        subqueryMap)
    st
  let st := addJoinEdges st sources stmt statementIndex subqueryMap
  addUnionEdges st sources stmt statementIndex targetTable

/-- graph.py _build_full_graph over a statement list. -/
def buildFullGraph (st : GraphBuilder) (statements : List Stmt) :
    GraphBuilder :=
  statements.foldl processFullStatement st

/-- graph.py _add_er_column_nodes: output and input column nodes for ER
mode (no edges here). -/
def addErColumnNodes (st : GraphBuilder) (outputColumn : OutputColumn)
    (statementIndex : Nat) (targetTable : Option TargetTable)
    (sources : List SourceDict) (subqueryMap : List (String × String)) :
    GraphBuilder :=
  let targetFull :=
    match targetTable with
    | some t => t.full_name
    | none => "unknown"
  let st :=
    if targetFull = "unknown" then
      addNode st
        { id := tableId "unknown", type := "table", name := "unknown",
          database := "", schema := "", full_name := "unknown",
          statement_index := statementIndex,
          description := "Unknown target table" }
    else st
  let outputName := outputColumn.name
  let outputColId := columnId targetFull outputName
  let st := addNode st
    { id := outputColId, type := "column", table_id := tableId targetFull,
      name := outputName, description := "Output column",
      statement_index := statementIndex,
      literals := outputColumn.lineage.literals }
  outputColumn.lineage.inputs.foldl
    (fun b inputRef =>
      let rw := resolveWithSubqueries inputRef.table sources statementIndex
        subqueryMap
      let b :=
        match rw.2 with
        | some w =>
          addWarning b "unresolved_table" w statementIndex
            (columnRefContext inputRef)
        | none => b
      let inputTable := resolvedFullName rw.1
      let inputColId := columnId inputTable inputRef.column
      addNode b
        { id := inputColId, type := "column",
          table_id := tableNodeIdFromResolved rw.1, name := inputRef.column,
          description := "Input column", statement_index := statementIndex })
    st

/-- graph.py _add_er_column_edges: one col_lineage edge per resolved input
of each output column. -/
def addErColumnEdges (st : GraphBuilder) (columns : List OutputColumn)
    (statementIndex : Nat) (sources : List SourceDict)
    (targetTable : Option TargetTable)
    (subqueryMap : List (String × String)) : GraphBuilder :=
  let targetFull :=
    match targetTable with
    | some t => t.full_name
    | none => "unknown"
  columns.foldl
    (fun b outputColumn =>
      let outputColId := columnId targetFull outputColumn.name
      let lineage := outputColumn.lineage
      let how :=
        match lineage.mapping.head? with
        | some m => m.reason
        | none => lineage.lineage_type
      lineage.inputs.foldl
        (fun b2 inputRef =>
          let rw := resolveWithSubqueries inputRef.table sources
            statementIndex subqueryMap
          let b2 :=
            match rw.2 with
            | some w =>
              addWarning b2 "unresolved_table" w statementIndex
                (columnRefContext inputRef)
            | none => b2
          let inputTable := resolvedFullName rw.1
          let inputColId := columnId inputTable inputRef.column
          addEdge b2 "col_lineage" inputColId outputColId "Column lineage"
            statementIndex
            { how := how, expression_sql := outputColumn.expression })
        b)
    st

/-- Python str.endswith. -/
def strEndsWith (s suffix : String) : Bool :=
  suffix.data.isSuffixOf s.data

/-- Split at the first occurrence of a one-character separator, as Python
s.split(sep, 1) (the separators used here are "=" and "."). -/
def splitOnce (s : String) (sep : Char) : String × String :=
  match splitCharsOnce sep s.data with
  | some pq => (String.mk pq.1, String.mk pq.2)
  | none => (s, "")

/-- graph.py _add_fk_like_edges: derive fk_like edges from equality join
conditions whose two sides are dotted references and where a column name
ends in "id". -/
def addFkLikeEdges (st : GraphBuilder) (stmt : Stmt)
    (statementIndex : Nat) (sources : List SourceDict)
    (subqueryMap : List (String × String)) : GraphBuilder :=
  stmt.joins.foldl
    (fun b join =>
      let condition := join.condition
      if ¬ strContainsSub condition "=" then b
      else
        let halves := splitOnce condition '='
        let left := strTrim halves.1
        let right := strTrim halves.2
        if ¬ strContainsSub left "." ∨ ¬ strContainsSub right "." then b
        else
          let lparts := splitOnce left '.'
          let rparts := splitOnce right '.' 
          let leftResolved := resolveWithSubqueries (some lparts.1) sources
            statementIndex subqueryMap
          let rightResolved := resolveWithSubqueries (some rparts.1) sources
            statementIndex subqueryMap
          let b :=
            match leftResolved.2 with
            | some w =>
              addWarning b "unresolved_table" w statementIndex left
            | none => b
          let b :=
            match rightResolved.2 with
            | some w =>
              addWarning b "unresolved_table" w statementIndex right
            | none => b
          let leftId := columnId (resolvedFullName leftResolved.1) lparts.2
          let rightId := columnId (resolvedFullName rightResolved.1) rparts.2
          if strEndsWith lparts.2 "id" ∨ strEndsWith rparts.2 "id" then
            addEdge b "fk_like" leftId rightId "FK-like join condition"
              statementIndex
              { how := "join", expression_sql := condition }
          else b)
    st

/-- graph.py _ensure_table_columns: attach to every table-like node the
deduplicated names of the column nodes referencing it. -/
def ensureTableColumns (st : GraphBuilder) : GraphBuilder :=
  let tableColumns := st.nodes.foldl
    (fun (m : List (String × List String)) n =>
      if n.type ≠ "column" then m
      else
        match dictGet m n.table_id with
        | some cols => dictSet m n.table_id (cols ++ [n.name])
        | none => dictSet m n.table_id [n.name])
    []
  { st with
    nodes := st.nodes.map
      (fun n =>
        if n.type = "table" ∨ n.type = "cte" ∨ n.type = "subquery" then
          let cols :=
            match dictGet tableColumns n.id with
            | some cols => cols
            | none => []
          { n with columns := ensureUniqueColumns cols }
        else n) }

/-- graph.py _build_er_columns_graph, one statement (without the final
table-column pass, applied once at the end of the mode). -/
def processErStatement (st : GraphBuilder) (stmt : Stmt) : GraphBuilder :=
  let statementIndex := stmt.index
  let sources := stmt.sources
  let subqueryMap := buildSubqueryMap statementIndex sources
  let targetTable := targetTableFromStatement stmt
  let st := addSourceNodes st sources statementIndex subqueryMap
  let st :=
    match targetTable with
    | some t => addTableNode st t statementIndex "table" "Target table"
    | none => st
  let st := stmt.columns.foldl
    (fun b col =>
      addErColumnNodes b col statementIndex targetTable sources subqueryMap)
    st
  let st := addErColumnEdges st stmt.columns statementIndex sources
    targetTable subqueryMap
  addFkLikeEdges st stmt statementIndex sources subqueryMap

/-- graph.py _build_er_columns_graph over a statement list. -/
def buildErColumnsGraph (st : GraphBuilder) (statements : List Stmt) :
    GraphBuilder :=
  ensureTableColumns (statements.foldl processErStatement st)

/-- graph.py build_graph, from the already-produced analysis (dialect,
top-level errors, statements): normalize the mode, record an error and fall
back to full for an unrecognized one, and dispatch. The graph dict itself is
assembled in finalizeGraph. -/
def buildGraphFromAnalysis (statements : List Stmt) (mode : String) :
    GraphBuilder × String × List String :=
  let normalizedMode := strToLower mode
  let modeErrors :=
    if normalizedMode = "full" ∨ normalizedMode = "er_columns" ∨
        normalizedMode = "tables_only" then ([] : List String)
    else ["Unsupported graph mode: " ++ mode]
  let normalizedMode :=
    if normalizedMode = "full" ∨ normalizedMode = "er_columns" ∨
        normalizedMode = "tables_only" then normalizedMode
    else "full"
  let builder : GraphBuilder := {}
  let builder :=
    if normalizedMode = "tables_only" then
      buildTablesOnlyGraph builder statements
    else if normalizedMode = "er_columns" then
      buildErColumnsGraph builder statements
    else buildFullGraph builder statements
  (builder, normalizedMode, modeErrors)

/-- The finished graph dictionary (graph.py build_graph). The meta block's
generation timestamp comes from the external clock and is carried opaquely. -/
structure Graph where
  dialect : String := ""
  mode : String := ""
  statementsCount : Nat := 0
  generated_at : String := ""
  nodes : List Node := []
  edges : List Edge := []
  errors : List String := []
  warnings : List Warning := []
deriving DecidableEq, Repr

/-- graph.py build_graph, from the already-produced analysis: assemble the
graph dict around the mode dispatch of buildGraphFromAnalysis. -/
def buildGraph (dialect : String) (analysisErrors : List String)
    (statements : List Stmt) (mode : String) : Graph :=
  let r := buildGraphFromAnalysis statements mode
  { dialect := dialect
    mode := r.2.1
    statementsCount := statements.length
    generated_at := ""
    nodes := r.1.nodes
    edges := r.1.edges
    errors := analysisErrors ++ r.2.2
    warnings := r.1.warnings }

/-- exporters.py _append_error. -/
def appendError (g : Graph) (message : String) : Graph :=
  { g with errors := g.errors ++ [message] }

/-- Python "\n".join. -/
def joinLines : List String → String
  | [] => ""
  | [x] => x
  | x :: y :: rest => x ++ "\n" ++ joinLines (y :: rest)

/-- exporters.py _mermaid_id: every non-alphanumeric character becomes an
underscore. -/
def mermaidId (nodeId : String) : String :=
  String.mk (nodeId.data.map (fun ch => if ch.isAlphanum then ch else '_'))

/-- exporters.py _node_shape. -/
def nodeShape (nodeType : String) : String × String :=
  if nodeType = "expression" then ("\x7b", "\x7d")
  else if nodeType = "column" then ("((", "))")
  else ("[", "]")

/-- exporters.py _mermaid_label. The Python node dicts omit the full_name
key on non-table nodes; the structure's default "" plays the role of the
missing key, falling back to the name. -/
def mermaidLabel (node : Node) : String :=
  let label :=
    if node.type = "column" then node.name
    else if node.type = "expression" then node.sql
    else if node.full_name = "" then node.name
    else node.full_name
  "\"" ++ label ++ "\""

/-- exporters.py _export_mermaid_flowchart: a "flowchart LR" header, one
shaped line per node and one labeled arrow per edge. -/
def exportMermaidFlowchart (g : Graph) : String :=
  let nodeLines := g.nodes.map
    (fun n =>
      "  " ++ mermaidId n.id ++ (nodeShape n.type).1 ++ mermaidLabel n ++
        (nodeShape n.type).2)
  let edgeLines := g.edges.map
    (fun e =>
      "  " ++ mermaidId e.from_ ++ " -->|" ++ e.type ++ "| " ++
        mermaidId e.to_)
  joinLines ("flowchart LR" :: (nodeLines ++ edgeLines))

/-- exporters.py _sanitize_er_name. -/
def sanitizeErName (name : String) : String :=
  String.mk (name.data.map (fun ch => if ch.isAlphanum then ch else '_'))

/-- exporters.py _export_mermaid_er. -/
def exportMermaidEr (g : Graph) : String :=
  let tables := g.nodes.filter (fun n => n.type = "table")
  let tableLines := tables.flatMap
    (fun t =>
      let tableName :=
        sanitizeErName (if t.full_name = "" then t.name else t.full_name)
      ("  " ++ tableName ++ " \x7b") ::
        (t.columns.map (fun c => "    string " ++ sanitizeErName c)) ++
        ["  \x7d"])
  let edgeLines :=
    (g.edges.filter
      (fun e => e.type = "table_lineage" ∨ e.type = "joins_with")).map
      (fun e =>
        "  " ++ sanitizeErName e.from_ ++ " ||--o\x7b " ++
          sanitizeErName e.to_ ++ " : " ++ e.type)
  joinLines ("erDiagram" :: (tableLines ++ edgeLines))

/-- exporters.py _dot_id. -/
def dotId (nodeId : String) : String :=
  "\"" ++ nodeId ++ "\""

/-- exporters.py _dot_label. -/
def dotLabel (node : Node) : String :=
  if node.type = "column" then node.name
  else if node.type = "expression" then node.sql
  else if node.full_name = "" then node.name
  else node.full_name

/-- exporters.py _export_graphviz_dot: nodes clustered by statement index in
first-seen order, one arrow per edge. -/
def exportGraphvizDot (g : Graph) : String :=
  let clusters := g.nodes.foldl
    (fun (m : List (Nat × List Node)) n =>
      match dictGet m n.statement_index with
      | some ns => dictSet m n.statement_index (ns ++ [n])
      | none => dictSet m n.statement_index [n])
    []
  let clusterLines := clusters.flatMap
    (fun (p : Nat × List Node) =>
      ("  subgraph \"cluster_" ++ toString p.1 ++ "\" \x7b") ::
        ("    label=\"Statement " ++ toString p.1 ++ "\"") ::
        (p.2.map (fun n =>
          "    " ++ dotId n.id ++ " [label=\"" ++ dotLabel n ++ "\"];")) ++
        ["  \x7d"])
  let edgeLines := g.edges.map
    (fun e =>
      "  " ++ dotId e.from_ ++ " -> " ++ dotId e.to_ ++ " [label=\"" ++
        e.type ++ "\"];")
  joinLines (("digraph lineage \x7b" :: clusterLines) ++ edgeLines ++
    ["\x7d"])

/-- Stands in for exporters.py's json.dumps dump of the graph dict: plain
JSON text serialization is declared out of scope by the spec (§1) and no
claim inspects this text; a structural line dump keeps the function total
and executable. -/
def jsonExportGraph (g : Graph) : String :=
  joinLines (g.dialect :: g.mode :: (g.nodes.map (fun n => n.id)) ++
    (g.edges.map (fun e => e.id)) ++ g.errors)

/-- exporters.py export_graph: dispatch on the lowercased format name;
mermaid_er demands a tables_only/er_columns graph and otherwise appends an
error and falls back to the flowchart renderer, as does an unrecognized
format. Returns the (possibly error-extended) graph with the rendered
text. -/
def exportGraph (g : Graph) (format : String) : Graph × String :=
  let normalizedFormat := strToLower format
  if normalizedFormat = "json" then (g, jsonExportGraph g)
  else if normalizedFormat = "mermaid_flowchart" then
    (g, exportMermaidFlowchart g)
  else if normalizedFormat = "mermaid_er" then
    if g.mode = "er_columns" ∨ g.mode = "tables_only" then
      (g, exportMermaidEr g)
    else
      let g := appendError g
        "Mermaid ER export is only supported for er_columns or tables_only modes."
      (g, exportMermaidFlowchart g)
  else if normalizedFormat = "graphviz_dot" then (g, exportGraphvizDot g)
  else
    let g := appendError g ("Unsupported export format: " ++ format)
    (g, exportMermaidFlowchart g)

/-! ## Helper lemmas about first-seen deduplication -/

theorem dedupByKey_sublist {α κ : Type} [DecidableEq κ] (key : α → κ)
    (l : List α) (seen : List κ) : (dedupByKey key l seen).Sublist l := by
  induction l generalizing seen with
  | nil => simp [dedupByKey]
  | cons x xs ih =>
    by_cases h : key x ∈ seen
    · simp only [dedupByKey, if_pos h]
      exact (ih seen).cons x
    · simp only [dedupByKey, if_neg h]
      exact (ih (key x :: seen)).cons₂ x

theorem key_notMem_of_mem_dedupByKey {α κ : Type} [DecidableEq κ]
    {key : α → κ} (l : List α) :
    ∀ (seen : List κ) (y : α), y ∈ dedupByKey key l seen → key y ∉ seen := by
  induction l with
  | nil =>
    intro seen y hy
    simp [dedupByKey] at hy
  | cons x xs ih =>
    intro seen y hy
    by_cases h : key x ∈ seen
    · simp only [dedupByKey, if_pos h] at hy
      exact ih seen y hy
    · simp only [dedupByKey, if_neg h, List.mem_cons] at hy
      rcases hy with hy | hy
      · subst hy; exact h
      · intro hmem
        exact ih (key x :: seen) y hy (List.mem_cons_of_mem _ hmem)

theorem mem_dedupByKey {α κ : Type} [DecidableEq κ] {key : α → κ}
    (hinj : Function.Injective key) (l : List α) :
    ∀ (seen : List κ) (x : α),
      x ∈ dedupByKey key l seen ↔ x ∈ l ∧ key x ∉ seen := by
  induction l with
  | nil =>
    intro seen x
    simp [dedupByKey]
  | cons y ys ih =>
    intro seen x
    by_cases h : key y ∈ seen
    · simp only [dedupByKey, if_pos h, ih, List.mem_cons]
      constructor
      · rintro ⟨hx, hk⟩
        exact ⟨Or.inr hx, hk⟩
      · rintro ⟨rfl | hx, hk⟩
        · exact absurd h hk
        · exact ⟨hx, hk⟩
    · simp only [dedupByKey, if_neg h, List.mem_cons, ih]
      constructor
      · rintro (rfl | ⟨hx, hk⟩)
        · exact ⟨Or.inl rfl, h⟩
        · rcases not_or.mp hk with ⟨hk1, hk2⟩
          exact ⟨Or.inr hx, hk2⟩
      · rintro ⟨rfl | hx, hk⟩
        · exact Or.inl rfl
        · by_cases hxy : x = y
          · exact Or.inl hxy
          · exact Or.inr ⟨hx, not_or.mpr ⟨fun hkk => hxy (hinj hkk), hk⟩⟩

theorem dedupByKey_pairwise_keys {α κ : Type} [DecidableEq κ] (key : α → κ)
    (l : List α) : ∀ (seen : List κ),
    (dedupByKey key l seen).Pairwise (fun a b => key a ≠ key b) := by
  induction l with
  | nil =>
    intro seen
    simp [dedupByKey]
  | cons x xs ih =>
    intro seen
    by_cases h : key x ∈ seen
    · simp only [dedupByKey, if_pos h]
      exact ih seen
    · simp only [dedupByKey, if_neg h]
      refine List.Pairwise.cons ?_ (ih (key x :: seen))
      intro b hb hkey
      have hnot := key_notMem_of_mem_dedupByKey xs (key x :: seen) b hb
      exact hnot (hkey ▸ List.mem_cons_self _ _)

theorem dedupByKey_nodup {α κ : Type} [DecidableEq κ] (key : α → κ)
    (l : List α) (seen : List κ) : (dedupByKey key l seen).Nodup := by
  have h := dedupByKey_pairwise_keys key l seen
  exact h.imp (fun hne heq => hne (congrArg key heq))

theorem uniqueColumnRefs_key_inj :
    Function.Injective (fun c : ColumnRef => (c.table, c.column)) := by
  intro a b h
  cases a; cases b
  simpa using h

theorem mem_uniqueColumnRefs (l : List ColumnRef) (x : ColumnRef) :
    x ∈ uniqueColumnRefs l ↔ x ∈ l := by
  unfold uniqueColumnRefs
  rw [mem_dedupByKey uniqueColumnRefs_key_inj]
  simp

theorem uniqueColumnRefs_nodup (l : List ColumnRef) :
    (uniqueColumnRefs l).Nodup :=
  dedupByKey_nodup _ l []

theorem uniqueColumnRefs_sublist (l : List ColumnRef) :
    (uniqueColumnRefs l).Sublist l :=
  dedupByKey_sublist _ l []

/-! ## C1: column-reference resolution policy -/

/-- The candidate set in the specification’s words, for claim C1: the
immediate non-CTE sources when any exist, else all sources. -/
def candidateSetSpec (ctx : AnalysisContext) : List SourceInfo :=
  if (ctx.sources.filter (fun s => s.source_type ≠ "cte")).length = 0 then
    ctx.sources
  else ctx.sources.filter (fun s => s.source_type ≠ "cte")

/-- The resolution policy exactly as the specification words it (the
refinement counterpart of resolveColumnRef, for claim C1): a qualified
reference resolves directly; an unqualified one is resolved against the
candidate set, resolving to the single candidate’s identifier when exactly
one candidate exists, and otherwise producing an ambiguous_column note
together with a null-table reference, never failing. -/
def resolveColumnRefSpec (col : ColumnLeaf) (ctx : AnalysisContext) :
    List ColumnRef × List NoteEntry :=
  if col.table ≠ "" then
    ([{ table := some col.table, column := col.name }], [])
  else if (candidateSetSpec ctx).length = 1 then
    match (candidateSetSpec ctx).head? with
    | some s => ([{ table := some s.identifier, column := col.name }], [])
    | none => ([{ table := none, column := col.name }], [⟨col.name⟩])
  else
    ([{ table := none, column := col.name }], [⟨col.name⟩])

/-- C1: for every column reference in an output expression, a qualified
reference resolves directly to ColumnRef(table=qualifier, column=name); an
unqualified reference is resolved against the candidate set (the immediate
non-CTE sources if any exist, else all sources), resolving to the single
candidate’s identifier when exactly one candidate exists and otherwise
emitting an ambiguous_column note with a null-table reference — the
resolution of _resolve_column_ref coincides with this policy on every input
and never fails the statement. -/
theorem claim_C1 (col : ColumnLeaf) (ctx : AnalysisContext) :
    resolveColumnRef col ctx = resolveColumnRefSpec col ctx := by
  unfold resolveColumnRef resolveColumnRefSpec candidateSetSpec
    AnalysisContext.resolveUnqualifiedColumn AnalysisContext.candidateSources
  by_cases hq : col.table ≠ ""
  · rw [if_pos hq, if_pos hq]
  · rw [if_neg hq, if_neg hq]
    cases hf : ctx.sources.filter (fun s => s.source_type ≠ "cte") with
    | nil =>
      cases hs : ctx.sources with
      | nil => simp [hf, hs]
      | cons x xs => cases xs <;> simp [hf, hs]
    | cons a rest =>
      cases rest <;> simp [hf]

/-! ## C2: transitive expansion through CTE/subquery chains -/

/-- C2: for every resolved ColumnRef whose table matches a cte or subquery
SourceInfo (looked up in sources and report_sources) with an output_inputs
entry for that column, transitive expansion appends (does not replace) each
nested ColumnRef and recurses on each; any reference without such a hop is
kept as the final answer for its branch; extract_lineage_data retains both
the immediate reference and every expansion hop in inputs and then
deduplicates them by (table, column) preserving first-seen order. -/
theorem claim_C2 (fuel : Nat) (c : ColumnRef) (ctx : AnalysisContext)
    (t : String) (src : SourceInfo) (e : ColumnRef) (es : List ColumnRef)
    (hct : c.table = some t) (hsrc : ctx.resolveSource t = some src)
    (hty : src.source_type = "cte" ∨ src.source_type = "subquery")
    (hlook : dictGet src.output_inputs c.column = some (e :: es)) :
    expandInputs (fuel + 1) c ctx =
      c :: (e :: es).flatMap (fun i => expandInputs fuel i ctx) ∧
    (∀ (f : Nat) (c2 : ColumnRef) (ctx2 : AnalysisContext),
      (expandInputs f c2 ctx2).head? = some c2) ∧
    (∀ (f : Nat) (c2 : ColumnRef) (ctx2 : AnalysisContext),
      expandInputs (f + 1) c2 ctx2 = [c2] ∨
      ∃ (t2 : String) (src2 : SourceInfo) (e2 : ColumnRef)
        (es2 : List ColumnRef),
        c2.table = some t2 ∧ ctx2.resolveSource t2 = some src2 ∧
        (src2.source_type = "cte" ∨ src2.source_type = "subquery") ∧
        dictGet src2.output_inputs c2.column = some (e2 :: es2) ∧
        expandInputs (f + 1) c2 ctx2 =
          c2 :: (e2 :: es2).flatMap (fun i => expandInputs f i ctx2)) ∧
    (∀ (f : Nat) (e2 : ExprNode) (nm : String) (ctx2 : AnalysisContext)
      (lt mr : String),
      (extractLineageData f e2 nm ctx2 lt mr).inputs =
        uniqueColumnRefs (e2.columns.flatMap (fun cl =>
          (resolveColumnRef cl ctx2).1.flatMap
            (fun i => expandInputs f i ctx2)))) ∧
    (∀ l : List ColumnRef,
      (uniqueColumnRefs l).Nodup ∧
      (∀ x, x ∈ uniqueColumnRefs l ↔ x ∈ l) ∧
      (uniqueColumnRefs l).Sublist l) := by
  refine ⟨?_, ?_, ?_, ?_, ?_⟩
  · simp only [expandInputs, hct, hsrc]
    rw [if_pos hty]
    simp only [hlook]
  · intro f c2 ctx2
    cases f with
    | zero => rfl
    | succ f =>
      simp only [expandInputs]
      rcases hc : c2.table with _ | t2
      · rfl
      · simp only [hc]
        rcases hr : ctx2.resolveSource t2 with _ | src2
        · rfl
        · simp only []
          by_cases h2 : src2.source_type = "cte" ∨ src2.source_type = "subquery"
          · rw [if_pos h2]
            rcases hd : dictGet src2.output_inputs c2.column with _ | (_ | ⟨x, xs⟩)
            · rfl
            · rfl
            · simp only [hd]
              rfl
          · rw [if_neg h2]
            rfl
  · intro f c2 ctx2
    simp only [expandInputs]
    rcases hc : c2.table with _ | t2
    · exact Or.inl rfl
    · simp only [hc]
      rcases hr : ctx2.resolveSource t2 with _ | src2
      · exact Or.inl rfl
      · simp only []
        by_cases h2 : src2.source_type = "cte" ∨ src2.source_type = "subquery"
        · rw [if_pos h2]
          rcases hd : dictGet src2.output_inputs c2.column with _ | (_ | ⟨x, xs⟩)
          · exact Or.inl rfl
          · exact Or.inl rfl
          · simp only [hd]
            refine Or.inr ⟨t2, src2, x, xs, rfl, hr, h2, hd, ?_⟩
            simp only [expandInputs, hc, hr]
        · rw [if_neg h2]
          exact Or.inl rfl
  · intro f e2 nm ctx2 lt mr
    rfl
  · intro l
    exact ⟨uniqueColumnRefs_nodup l, mem_uniqueColumnRefs l,
      uniqueColumnRefs_sublist l⟩

/-- A base table `t`. -/
def tableT : SourceInfo :=
  { name := "t", alias_ := "", database := "", source_type := "table",
    output_inputs := [] }

/-- A CTE `b` whose output column x derives from t.x
(as in `WITH b AS (SELECT x FROM t)`). -/
def cteB : SourceInfo :=
  { name := "b", alias_ := "b", database := "", source_type := "cte",
    output_inputs := [("x", [{ table := some "t", column := "x" }])] }

/-- The context of `SELECT x FROM b` under the CTE above: b is the only
resolution source, t is reported from inside the CTE. -/
def ctxB : AnalysisContext :=
  { sources := [cteB], report_sources := [cteB, tableT],
    dialect := "clickhouse", active_identifiers := ["b"] }

/-- Witness for C2: expanding b.x through the CTE hop appends the nested
t.x reference after the immediate one. -/
theorem claim_C2_witness :
    expandInputs 2 { table := some "b", column := "x" } ctxB =
      { table := some "b", column := "x" } ::
        ([({ table := some "t", column := "x" } : ColumnRef)].flatMap
          (fun i => expandInputs 1 i ctxB)) :=
  (claim_C2 1 { table := some "b", column := "x" } ctxB "b" cteB
    { table := some "t", column := "x" } [] rfl (by decide) (Or.inl rfl)
    (by decide)).1

/-! ## Shared concrete fixtures for union statements -/

/-- Left-branch column v = upper(a) from t1, with a function, a literal and
a note on its lineage. -/
def colV : OutputColumn :=
  { name := "v", expression := "upper(a)"
    lineage :=
      { lineage_type := "expression"
        inputs := [{ table := some "t1", column := "a" }]
        mapping := [{ output_column := "v",
                      sources := [{ table := some "t1", column := "a" }],
                      reason := "expression" }]
        functions := ["upper"]
        literals := ["1"]
        notes := [⟨"a"⟩] }
    dependencies := [{ table := "t1", columns := ["a"] }] }

/-- Left-branch column w renaming t2.b. -/
def colW : OutputColumn :=
  { name := "w", expression := "b"
    lineage :=
      { lineage_type := "column_rename"
        inputs := [{ table := some "t2", column := "b" }]
        mapping := [{ output_column := "w",
                      sources := [{ table := some "t2", column := "b" }],
                      reason := "alias" }]
        functions := [], literals := [], notes := [] }
    dependencies := [{ table := "t2", columns := ["b"] }] }

/-- Right-branch column v2 reading the same t1.a as the left branch. -/
def colV2 : OutputColumn :=
  { name := "v2", expression := "a"
    lineage :=
      { lineage_type := "column_rename"
        inputs := [{ table := some "t1", column := "a" }]
        mapping := [{ output_column := "v2",
                      sources := [{ table := some "t1", column := "a" }],
                      reason := "alias" }]
        functions := [], literals := [], notes := [] }
    dependencies := [{ table := "t1", columns := ["a"] }] }

/-- Left branch of a UNION: two output columns over tables t1 and t2. -/
def leftBr : BranchAnalysis :=
  { sources := [{ type := "table", name := "t1", database := "", alias_ := "" },
                { type := "table", name := "t2", database := "", alias_ := "" }]
    columns := [colV, colW]
    joins := [] }

/-- Right branch of the UNION: a single output column over t1. -/
def rightBr : BranchAnalysis :=
  { sources := [{ type := "table", name := "t1", database := "", alias_ := "" }]
    columns := [colV2]
    joins := [] }

/-! ## C9: union lineage carries empty functions, literals and notes -/

/-- C9: for every UNION statement, every output column's LineageData
carries empty functions, literals and notes lists, regardless of what the
branch columns carried. -/
theorem claim_C9 (left right : BranchAnalysis) (col : OutputColumn)
    (hcol : col ∈ (analyzeUnion left right).columns) :
    col.lineage.functions = [] ∧ col.lineage.literals = [] ∧
      col.lineage.notes = [] := by
  unfold analyzeUnion at hcol
  simp only [List.mem_map] at hcol
  obtain ⟨p, hp, rfl⟩ := hcol
  exact ⟨rfl, rfl, rfl⟩

/-- Witness for C9 at a union whose left branch column carries a function,
a literal and a note. -/
theorem claim_C9_witness :
    colV.lineage.functions = ["upper"] ∧
    (mergeUnionColumn colV (some colV2)).lineage.functions = [] ∧
    (mergeUnionColumn colV (some colV2)).lineage.literals = [] ∧
    (mergeUnionColumn colV (some colV2)).lineage.notes = [] :=
  ⟨rfl,
    (claim_C9 leftBr rightBr (mergeUnionColumn colV (some colV2))
      (by decide)).1,
    (claim_C9 leftBr rightBr (mergeUnionColumn colV (some colV2))
      (by decide)).2.1,
    (claim_C9 leftBr rightBr (mergeUnionColumn colV (some colV2))
      (by decide)).2.2⟩

/-! ## C4: union pairing and input concatenation -/

/-- Counterexample for C4: the union of two branches both reading t1.a
yields an inputs list with the duplicate retained — the inputs list is the
plain concatenation, not the (table, column)-deduplicated one the claim
describes. -/
theorem claim_C4_cex :
    ((analyzeUnion leftBr rightBr).columns.map
        (fun c => c.lineage.inputs)).head? =
      some [{ table := some "t1", column := "a" },
            { table := some "t1", column := "a" }] ∧
    uniqueColumnRefs
        (colV.lineage.inputs ++ colV2.lineage.inputs) =
      [{ table := some "t1", column := "a" }] ∧
    ((analyzeUnion leftBr rightBr).columns.map
        (fun c => c.lineage.inputs)).head? ≠
      some (uniqueColumnRefs
        (colV.lineage.inputs ++ colV2.lineage.inputs)) := by
  refine ⟨by decide, by decide, ?_⟩
  decide

/-- C4 as amended: for every paired (or singly-present) ordinal position,
the union output column's inputs list is the concatenation of both
branches' inputs for that position, kept without deduplication, and its
lineage type and every mapping reason are union. -/
theorem claim_C4_amended (left right : BranchAnalysis) (i : Nat)
    (lc : OutputColumn) (hl : left.columns.get? i = some lc) :
    ∃ col, (analyzeUnion left right).columns.get? i = some col ∧
      col.lineage.inputs = lc.lineage.inputs ++
        (match right.columns.get? i with
         | some rc => rc.lineage.inputs
         | none => []) ∧
      col.lineage.lineage_type = "union" ∧
      ∀ m ∈ col.lineage.mapping, m.reason = "union" := by
  refine ⟨mergeUnionColumn lc (right.columns.get? i), ?_, ?_, rfl, ?_⟩
  · unfold analyzeUnion
    simp only [List.get?_map, List.get?_enum, hl, Option.map_some]
    rfl
  · cases right.columns.get? i <;> rfl
  · intro m hm
    unfold mergeUnionColumn at hm
    simp only [List.mem_singleton] at hm
    subst hm
    rfl

/-- Witness for the amended C4 at the concrete union fixture. -/
theorem claim_C4_amended_witness :
    ∃ col, (analyzeUnion leftBr rightBr).columns.get? 0 = some col ∧
      col.lineage.inputs = colV.lineage.inputs ++
        (match rightBr.columns.get? 0 with
         | some rc => rc.lineage.inputs
         | none => []) ∧
      col.lineage.lineage_type = "union" ∧
      ∀ m ∈ col.lineage.mapping, m.reason = "union" :=
  claim_C4_amended leftBr rightBr 0 colV rfl

/-! ## C6: union pairing with unequal branch arities -/

/-- Counterexample for C6: with two left columns and one right column the
union output keeps both left columns (the second singly), so the output is
not truncated to the shorter branch's length — columns beyond it are not
dropped when they come from the left branch. -/
theorem claim_C6_cex :
    (analyzeUnion leftBr rightBr).columns.length = 2 ∧
    min leftBr.columns.length rightBr.columns.length = 1 ∧
    (analyzeUnion leftBr rightBr).columns.length ≠
      min leftBr.columns.length rightBr.columns.length ∧
    ((analyzeUnion leftBr rightBr).columns.get? 1).map
        (fun c => c.lineage.inputs) =
      some [{ table := some "t2", column := "b" }] := by
  refine ⟨by decide, by decide, by decide, by decide⟩

/-- C6 as amended: output columns are paired by ordinal position up to the
shorter branch's length; right-branch columns beyond the left branch's
length are dropped with no pairing, while left-branch columns beyond the
right branch's length are kept as output columns with only their own
inputs. -/
theorem claim_C6_amended (left right : BranchAnalysis) (i : Nat) :
    (analyzeUnion left right).columns.length = left.columns.length ∧
    ((analyzeUnion left right).columns.get? i).map
        (fun c => c.lineage.inputs) =
      (left.columns.get? i).map (fun lc =>
        lc.lineage.inputs ++
          (match right.columns.get? i with
           | some rc => rc.lineage.inputs
           | none => [])) := by
  constructor
  · unfold analyzeUnion
    simp [List.length_map, List.enum_length]
  · unfold analyzeUnion
    simp only [List.get?_map, List.get?_enum]
    cases hl : left.columns.get? i with
    | none => rfl
    | some lc =>
      rw [List.get?_eq_getElem?] at hl
      cases hr : right.columns.get? i <;>
        rw [List.get?_eq_getElem?] at hr <;>
        simp [mergeUnionColumn, hr]

/-! ## C5: dependency aggregation -/

/-- For claim C5, in the spec's words: an input is excluded from the
Dependency grouping when it has no table or when its table resolves to a
cte or subquery SourceInfo. -/
def dependencyExcluded (ctx : AnalysisContext) (c : ColumnRef) : Bool :=
  match c.table with
  | none => true
  | some t =>
    match ctx.resolveSource t with
    | none => false
    | some src =>
      decide (src.source_type = "cte" ∨ src.source_type = "subquery")

/-- For claim C5: the base-table name an input is attributed to (the
resolved source's name when available and nonempty, else the raw
qualifier). -/
def dependencyBaseName (ctx : AnalysisContext) (c : ColumnRef) : String :=
  match c.table with
  | none => ""
  | some t =>
    match ctx.resolveSource t with
    | none => t
    | some src => if src.name = "" then t else src.name

/-- The Dependency aggregation in the spec's words (claim C5): group the
non-excluded inputs by base table, then ensure an entry for every
table-typed report source. -/
def buildDependenciesSpec (inputs : List ColumnRef) (ctx : AnalysisContext) :
    List Dependency :=
  let kept := inputs.filter (fun c => ! dependencyExcluded ctx c)
  let grouped := kept.foldl
    (fun g c => groupInsert g (dependencyBaseName ctx c) c.column) []
  let grouped := ctx.report_sources.foldl
    (fun g src =>
      if src.source_type = "table" then groupSetdefault g src.name else g)
    grouped
  grouped.map (fun (p : String × List String) =>
    { table := p.1, columns := p.2 })

theorem buildDependencies_fold_filter (ctx : AnalysisContext) :
    ∀ (inputs : List ColumnRef) (g : List (String × List String)),
      inputs.foldl
        (fun g item =>
          match item.table with
          | none => g
          | some t =>
            match ctx.resolveSource t with
            | none => groupInsert g t item.column
            | some src =>
              if src.source_type = "cte" ∨ src.source_type = "subquery" then
                g
              else
                groupInsert g (if src.name = "" then t else src.name)
                  item.column)
        g =
      (inputs.filter (fun c => ! dependencyExcluded ctx c)).foldl
        (fun g c => groupInsert g (dependencyBaseName ctx c) c.column) g := by
  intro inputs
  induction inputs with
  | nil => intro g; rfl
  | cons c cs ih =>
    intro g
    have hstep :
        (fun g item =>
          match item.table with
          | none => g
          | some t =>
            match ctx.resolveSource t with
            | none => groupInsert g t item.column
            | some src =>
              if src.source_type = "cte" ∨ src.source_type = "subquery" then
                g
              else
                groupInsert g (if src.name = "" then t else src.name)
                  item.column) g c =
        (if dependencyExcluded ctx c = true then g
         else groupInsert g (dependencyBaseName ctx c) c.column) := by
      rcases hct : c.table with _ | t
      · simp [dependencyExcluded, hct]
      · rcases hres : ctx.resolveSource t with _ | src
        · simp [dependencyExcluded, dependencyBaseName, hct, hres]
        · by_cases hcs :
            src.source_type = "cte" ∨ src.source_type = "subquery"
          · simp [dependencyExcluded, dependencyBaseName, hct, hres, hcs]
          · simp [dependencyExcluded, dependencyBaseName, hct, hres, hcs]
    rw [List.foldl_cons, List.filter_cons]
    simp only [hstep]
    by_cases hex : dependencyExcluded ctx c = true
    · rw [if_pos hex, hex]
      simpa using ih g
    · rw [if_neg hex]
      rw [Bool.not_eq_true] at hex
      rw [hex]
      simpa using ih (groupInsert g (dependencyBaseName ctx c) c.column)

theorem dictGet_some_mem_keys {β : Type} {g : List (String × β)} {k : String}
    {v : β} (h : dictGet g k = some v) : k ∈ g.map Prod.fst := by
  unfold dictGet at h
  rcases hf : g.find? (fun p => p.1 = k) with _ | pr
  · rw [hf] at h; simp at h
  · have hmem := List.mem_of_find?_eq_some hf
    have hp := List.find?_some hf
    simp only [decide_eq_true_eq] at hp
    subst hp
    exact List.mem_map_of_mem Prod.fst hmem

theorem keys_groupInsert {g : List (String × List String)} {t c k : String}
    (h : k ∈ g.map Prod.fst) : k ∈ (groupInsert g t c).map Prod.fst := by
  unfold groupInsert
  rcases hd : dictGet g t with _ | cols
  · simp only [List.map_append]
    exact List.mem_append_left _ h
  · by_cases hc : c ∈ cols
    · simpa [hc] using h
    · simp only [if_neg hc, List.map_map]
      have : ((fun p : String × List String =>
          if p.1 = t then (t, cols ++ [c]) else p) · |>.1) = Prod.fst := by
        funext p
        by_cases hp : p.1 = t <;> simp [hp]
      simpa [Function.comp_def, this] using h

theorem keys_groupSetdefault {g : List (String × List String)} {t k : String}
    (h : k ∈ g.map Prod.fst) : k ∈ (groupSetdefault g t).map Prod.fst := by
  unfold groupSetdefault
  rcases hd : dictGet g t with _ | cols
  · simp only [List.map_append]
    exact List.mem_append_left _ h
  · exact h

theorem keys_groupSetdefault_self (g : List (String × List String))
    (k : String) : k ∈ (groupSetdefault g k).map Prod.fst := by
  unfold groupSetdefault
  rcases hd : dictGet g k with _ | cols
  · simp
  · exact dictGet_some_mem_keys hd

theorem padding_fold_mem (srcs : List SourceInfo) :
    ∀ (g : List (String × List String)) (src : SourceInfo),
      src ∈ srcs → src.source_type = "table" →
      src.name ∈
        ((srcs.foldl
          (fun g s =>
            if s.source_type = "table" then groupSetdefault g s.name else g)
          g).map Prod.fst) := by
  have hpres : ∀ (srcs2 : List SourceInfo) (g : List (String × List String))
      (k : String), k ∈ g.map Prod.fst →
      k ∈ ((srcs2.foldl
        (fun g s =>
          if s.source_type = "table" then groupSetdefault g s.name else g)
        g).map Prod.fst) := by
    intro srcs2
    induction srcs2 with
    | nil => intro g k h; exact h
    | cons s ss ih =>
      intro g k h
      simp only [List.foldl_cons]
      by_cases hs : s.source_type = "table"
      · rw [if_pos hs]
        exact ih _ k (keys_groupSetdefault h)
      · rw [if_neg hs]
        exact ih _ k h
  induction srcs with
  | nil => intro g src h; simp at h
  | cons s ss ih =>
    intro g src hmem hty
    simp only [List.foldl_cons]
    rcases List.mem_cons.mp hmem with rfl | hmem2
    · rw [if_pos hty]
      exact hpres ss _ _ (keys_groupSetdefault_self g src.name)
    · by_cases hs : s.source_type = "table"
      · rw [if_pos hs]
        exact ih _ src hmem2 hty
      · rw [if_neg hs]
        exact ih _ src hmem2 hty

/-- C5 as amended: for output columns of a plain SELECT analysis — whose
dependencies are built with the statement's context — build_dependencies
groups the resolved inputs by base table excluding every input whose table
resolves to a cte or subquery SourceInfo, and pads the grouping with an
entry (possibly empty) for every table-typed report source; union-merged
output columns rebuild their dependencies without a context, so there the
exclusion and the padding do not apply. -/
theorem claim_C5_amended (inputs : List ColumnRef) (ctx : AnalysisContext)
    (src : SourceInfo) (hsrc : src ∈ ctx.report_sources)
    (hty : src.source_type = "table") :
    buildDependencies inputs (some ctx) = buildDependenciesSpec inputs ctx ∧
    src.name ∈ (buildDependencies inputs (some ctx)).map
      (fun d => d.table) := by
  have heq : buildDependencies inputs (some ctx) =
      buildDependenciesSpec inputs ctx := by
    unfold buildDependencies buildDependenciesSpec
    rw [buildDependencies_fold_filter ctx inputs]
  refine ⟨heq, ?_⟩
  rw [heq]
  unfold buildDependenciesSpec
  have hk := padding_fold_mem ctx.report_sources
    ((inputs.filter (fun c => ! dependencyExcluded ctx c)).foldl
      (fun g c => groupInsert g (dependencyBaseName ctx c) c.column) [])
    src hsrc hty
  simp only [List.map_map]
  simpa [Function.comp_def] using hk

/-- Witness for the amended C5: the SELECT over the CTE chain attributes x
to base table t only, and pads the report table t into the dependencies. -/
theorem claim_C5_amended_witness :
    buildDependencies
        [{ table := some "b", column := "x" },
         { table := some "t", column := "x" }] (some ctxB) =
      buildDependenciesSpec
        [{ table := some "b", column := "x" },
         { table := some "t", column := "x" }] ctxB ∧
    tableT.name ∈ (buildDependencies
        [{ table := some "b", column := "x" },
         { table := some "t", column := "x" }] (some ctxB)).map
      (fun d => d.table) :=
  claim_C5_amended _ ctxB tableT (by decide) rfl

/-- Counterexample for C5: in a UNION statement the merged column's
dependencies are rebuilt without a context, so the statement's reported
table t2 gets no Dependency entry — the Dependency list does not reflect
the statement's full table footprint. -/
theorem claim_C5_cex :
    ({ type := "table", name := "t2", database := "", alias_ := "" } :
        SourceDict) ∈ (analyzeUnion leftBr rightBr).sources ∧
    ((analyzeUnion leftBr rightBr).columns.get? 0).map
        (fun c => c.dependencies.map (fun d => d.table)) = some ["t1"] ∧
    (((analyzeUnion leftBr rightBr).columns.get? 0).map
        (fun c => decide ("t2" ∈ c.dependencies.map (fun d => d.table)))) =
      some false := by
  refine ⟨by decide, by decide, by decide⟩

/-! ## Generic graph-builder lemmas -/

theorem addNode_edges (st : GraphBuilder) (n : Node) :
    (addNode st n).edges = st.edges := by
  unfold addNode
  split <;> rfl

theorem addNode_warnings (st : GraphBuilder) (n : Node) :
    (addNode st n).warnings = st.warnings := by
  unfold addNode
  split <;> rfl

theorem addEdge_nodes (st : GraphBuilder) (ty f t d : String) (i : Nat)
    (det : EdgeDetails) : (addEdge st ty f t d i det).nodes = st.nodes := rfl

theorem addWarning_nodes (st : GraphBuilder) (c m : String) (i : Nat)
    (x : String) : (addWarning st c m i x).nodes = st.nodes := rfl

theorem addWarning_edges (st : GraphBuilder) (c m : String) (i : Nat)
    (x : String) : (addWarning st c m i x).edges = st.edges := rfl

theorem addNode_nodes_cases (st : GraphBuilder) (n : Node) :
    (addNode st n).nodes = st.nodes ∨
      (addNode st n).nodes = st.nodes ++ [n] := by
  unfold addNode
  split
  · exact Or.inl rfl
  · exact Or.inr rfl

theorem mem_addNode_nodes {st : GraphBuilder} {m : Node} (n : Node)
    (h : m ∈ st.nodes) : m ∈ (addNode st n).nodes := by
  rcases addNode_nodes_cases st n with hc | hc <;> rw [hc]
  · exact h
  · exact List.mem_append_left _ h

theorem foldl_edges_eq {α : Type} (f : GraphBuilder → α → GraphBuilder)
    (hf : ∀ st a, (f st a).edges = st.edges) :
    ∀ (l : List α) (st : GraphBuilder), (l.foldl f st).edges = st.edges := by
  intro l
  induction l with
  | nil => intro st; rfl
  | cons a as ih =>
    intro st
    rw [List.foldl_cons, ih, hf]

theorem foldl_nodes_eq {α : Type} (f : GraphBuilder → α → GraphBuilder)
    (hf : ∀ st a, (f st a).nodes = st.nodes) :
    ∀ (l : List α) (st : GraphBuilder), (l.foldl f st).nodes = st.nodes := by
  intro l
  induction l with
  | nil => intro st; rfl
  | cons a as ih =>
    intro st
    rw [List.foldl_cons, ih, hf]

theorem foldl_builder_preserves {α : Type} (P : GraphBuilder → Prop)
    (f : GraphBuilder → α → GraphBuilder)
    (hf : ∀ st a, P st → P (f st a)) :
    ∀ (l : List α) (st : GraphBuilder), P st → P (l.foldl f st) := by
  intro l
  induction l with
  | nil => intro st h; exact h
  | cons a as ih =>
    intro st h
    exact ih _ (hf st a h)

theorem addSourceNodes_edges (sources : List SourceDict) (st : GraphBuilder)
    (idx : Nat) (sqmap : List (String × String)) :
    (addSourceNodes st sources idx sqmap).edges = st.edges := by
  unfold addSourceNodes
  refine foldl_edges_eq _ ?_ sources st
  intro b s
  dsimp only
  by_cases h1 : s.type = "table"
  · rw [if_pos h1]; exact addNode_edges _ _
  · rw [if_neg h1]
    by_cases h2 : s.type = "cte"
    · rw [if_pos h2]; exact addNode_edges _ _
    · rw [if_neg h2]
      by_cases h3 : s.type = "subquery"
      · rw [if_pos h3]; exact addNode_edges _ _
      · rw [if_neg h3]; exact addNode_edges _ _

theorem addTableNode_edges (st : GraphBuilder) (t : TargetTable) (idx : Nat)
    (ty d : String) : (addTableNode st t idx ty d).edges = st.edges := by
  unfold addTableNode
  exact addNode_edges _ _

theorem foldl_addEdge_exists {α : Type} (ty : String) (f1 f2 : α → String)
    (desc : String) (idx : Nat) (fd : α → EdgeDetails) :
    ∀ (l : List α) (st : GraphBuilder),
      ∃ E, (l.foldl
          (fun b a => addEdge b ty (f1 a) (f2 a) desc idx (fd a)) st).edges =
          st.edges ++ E ∧
        E.map (fun e => (e.from_, e.to_, e.details)) =
          l.map (fun a => (f1 a, f2 a, fd a)) ∧
        ∀ ed ∈ E, ed.type = ty ∧ ed.statement_index = idx := by
  intro l
  induction l with
  | nil =>
    intro st
    exact ⟨[], by simp, by simp, by simp⟩
  | cons a as ih =>
    intro st
    obtain ⟨E, hE, hproj, hty⟩ :=
      ih (addEdge st ty (f1 a) (f2 a) desc idx (fd a))
    refine ⟨{ id := "edge:" ++ ty ++ ":" ++ toString (st.edgeCount + 1),
              type := ty, from_ := f1 a, to_ := f2 a, description := desc,
              statement_index := idx, details := fd a } :: E, ?_, ?_, ?_⟩
    · rw [List.foldl_cons, hE]
      simp [addEdge]
    · simp [hproj]
    · intro ed hed
      rcases List.mem_cons.mp hed with rfl | hed2
      · exact ⟨rfl, rfl⟩
      · exact hty ed hed2

/-! ## Characterizing the tables_only aggregation -/

theorem dedupByKey_append_singleton {α κ : Type} [DecidableEq κ]
    (key : α → κ) (x : α) :
    ∀ (l : List α) (seen : List κ),
      dedupByKey key (l ++ [x]) seen =
        dedupByKey key l seen ++
          (if key x ∈ seen ∨ key x ∈ l.map key then [] else [x]) := by
  intro l
  induction l with
  | nil =>
    intro seen
    by_cases h : key x ∈ seen
    · simp [dedupByKey, h]
    · simp [dedupByKey, h]
  | cons y ys ih =>
    intro seen
    by_cases h : key y ∈ seen
    · rw [List.cons_append, dedupByKey, if_pos h, ih, dedupByKey, if_pos h]
      have hiff : (key x ∈ seen ∨ key x ∈ ys.map key) ↔
          (key x ∈ seen ∨ key x ∈ (y :: ys).map key) := by
        simp only [List.map_cons, List.mem_cons]
        constructor
        · rintro (hs | hm)
          · exact Or.inl hs
          · exact Or.inr (Or.inr hm)
        · rintro (hs | (heq | hm))
          · exact Or.inl hs
          · exact Or.inl (heq ▸ h)
          · exact Or.inr hm
      rw [if_congr hiff rfl rfl]
    · rw [List.cons_append, dedupByKey, if_neg h, ih, dedupByKey, if_neg h]
      have hiff : (key x ∈ key y :: seen ∨ key x ∈ ys.map key) ↔
          (key x ∈ seen ∨ key x ∈ (y :: ys).map key) := by
        simp only [List.map_cons, List.mem_cons]
        tauto
      rw [if_congr hiff rfl rfl, List.cons_append]

theorem dictGet_map_keys {β : Type} (F : String → β) (k : String) :
    ∀ (ks : List String),
      dictGet (ks.map (fun k2 => (k2, F k2))) k =
        if k ∈ ks then some (F k) else none := by
  intro ks
  induction ks with
  | nil => simp [dictGet]
  | cons k0 ks ih =>
    by_cases h : k0 = k
    · subst h
      simp [dictGet, List.find?]
    · rw [List.map_cons]
      unfold dictGet at ih ⊢
      rw [List.find?_cons_of_neg _ (by simpa using h), ih]
      have : (k ∈ k0 :: ks) ↔ (k ∈ ks) := by
        simp only [List.mem_cons]
        constructor
        · rintro (rfl | hm)
          · exact absurd rfl h
          · exact hm
        · exact Or.inr
      rw [if_congr this rfl rfl]

/-- The aggregation record of _build_tables_only_graph, stated directly in
counting terms: one entry per distinct resolved source name in first-seen
order, carrying the number of contributing (output column, input) pairs and
the first-seen-deduplicated reasons. -/
def depFoldSpec (pairs : List (String × String)) :
    List (String × Nat × List String) :=
  (dedupByKey id (pairs.map Prod.fst) []).map (fun k =>
    (k, (pairs.filter (fun p => p.1 = k)).length,
      dedupByKey id ((pairs.filter (fun p => p.1 = k)).map Prod.snd) []))

theorem depInsert_spec_snoc (pairs : List (String × String))
    (p : String × String) :
    depInsert (depFoldSpec pairs) p.1 p.2 = depFoldSpec (pairs ++ [p]) := by
  have hidinj : Function.Injective (id : String → String) := fun a b h => h
  unfold depFoldSpec
  rw [List.map_append]
  simp only [List.map_cons, List.map_nil]
  rw [dedupByKey_append_singleton]
  simp only [List.mem_nil_iff, false_or, List.map_id, id_eq]
  by_cases hk : p.1 ∈ pairs.map Prod.fst
  · rw [if_pos hk, List.append_nil]
    have hkded : p.1 ∈ dedupByKey id (pairs.map Prod.fst) [] := by
      rw [mem_dedupByKey hidinj]
      simpa using hk
    unfold depInsert
    rw [dictGet_map_keys]
    simp only [hkded, if_true, List.map_map]
    refine List.map_congr_left ?_
    intro k hkmem
    by_cases hkp : k = p.1
    · simp only [hkp, Function.comp_def, if_true]
      have hfilt : (pairs ++ [p]).filter (fun q => q.1 = p.1) =
          pairs.filter (fun q => q.1 = p.1) ++ [p] := by
        rw [List.filter_append]
        simp
      rw [hfilt, List.length_append, List.map_append]
      simp only [List.length_cons, List.length_nil, List.map_cons,
        List.map_nil]
      rw [dedupByKey_append_singleton]
      simp only [List.mem_nil_iff, false_or, id_eq]
      have hmemiff : p.2 ∈ dedupByKey id
          ((pairs.filter (fun q => q.1 = p.1)).map Prod.snd) [] ↔
          p.2 ∈ (pairs.filter (fun q => q.1 = p.1)).map Prod.snd := by
        rw [mem_dedupByKey hidinj]
        simp
      by_cases hp2 : p.2 ∈ (pairs.filter (fun q => q.1 = p.1)).map Prod.snd
      · rw [if_pos (hmemiff.mpr hp2)]
        simp [hp2]
      · rw [if_neg (fun hc => hp2 (hmemiff.mp hc))]
        simp [hp2]
    · simp only [Function.comp_def]
      rw [if_neg hkp]
      have hfilt : (pairs ++ [p]).filter (fun q => q.1 = k) =
          pairs.filter (fun q => q.1 = k) := by
        rw [List.filter_append]
        have hne : ¬ (p.1 = k) := fun hc => hkp hc.symm
        simp [hne]
      rw [hfilt]
  · rw [if_neg hk]
    have hkded : p.1 ∉ dedupByKey id (pairs.map Prod.fst) [] := by
      rw [mem_dedupByKey hidinj]
      simp [hk]
    unfold depInsert
    rw [dictGet_map_keys]
    simp only [hkded, if_false, List.map_append]
    congr 1
    · refine List.map_congr_left ?_
      intro k hkmem
      have hkp : k ≠ p.1 := by
        intro hc
        subst hc
        exact hkded hkmem
      have hfilt : (pairs ++ [p]).filter (fun q => q.1 = k) =
          pairs.filter (fun q => q.1 = k) := by
        rw [List.filter_append]
        simp only [List.filter_cons, List.filter_nil]
        have : ¬ (p.1 = k) := fun hc => hkp hc.symm
        simp [this]
      rw [hfilt]
    · have hfilt : (pairs ++ [p]).filter (fun q => q.1 = p.1) =
          [p] := by
        rw [List.filter_append]
        have h1 : pairs.filter (fun q => q.1 = p.1) = [] := by
          rw [List.filter_eq_nil_iff]
          intro q hq hc
          simp only [decide_eq_true_eq] at hc
          exact hk (hc ▸ List.mem_map_of_mem Prod.fst hq)
        rw [h1]
        simp
      rw [List.map_cons]
      simp only [hfilt]
      rfl

theorem depFold_eq_spec (pairs : List (String × String)) :
    pairs.foldl (fun m p => depInsert m p.1 p.2) [] = depFoldSpec pairs := by
  induction pairs using List.reverseRecOn with
  | nil => rfl
  | append_singleton l p ih =>
    rw [List.foldl_append, List.foldl_cons, List.foldl_nil, ih,
      depInsert_spec_snoc]

/-- The flattened (resolved source name, lineage type) pairs that
_build_tables_only_graph aggregates over, one per (output column, input)
pair in order. -/
def tablesOnlyPairs (columns : List OutputColumn) (sources : List SourceDict)
    (statementIndex : Nat) (subqueryMap : List (String × String)) :
    List (String × String) :=
  columns.flatMap (fun col =>
    col.lineage.inputs.map (fun inp =>
      ((resolveWithSubqueries inp.table sources statementIndex
          subqueryMap).1.full_name,
       col.lineage.lineage_type)))

theorem tablesOnlyDepPass_inner (sources : List SourceDict)
    (statementIndex : Nat) (subqueryMap : List (String × String))
    (col : OutputColumn) :
    ∀ (inputs : List ColumnRef)
      (acc : GraphBuilder × List (String × Nat × List String)),
      ((inputs.foldl
        (fun (acc2 : GraphBuilder × List (String × Nat × List String)) inp =>
          let rw := resolveWithSubqueries inp.table sources statementIndex
            subqueryMap
          let b :=
            match rw.2 with
            | some w =>
              addWarning acc2.1 "unresolved_table" w statementIndex
                (columnRefContext inp)
            | none => acc2.1
          (b, depInsert acc2.2 rw.1.full_name col.lineage.lineage_type))
        acc).1.edges = acc.1.edges) ∧
      ((inputs.foldl
        (fun (acc2 : GraphBuilder × List (String × Nat × List String)) inp =>
          let rw := resolveWithSubqueries inp.table sources statementIndex
            subqueryMap
          let b :=
            match rw.2 with
            | some w =>
              addWarning acc2.1 "unresolved_table" w statementIndex
                (columnRefContext inp)
            | none => acc2.1
          (b, depInsert acc2.2 rw.1.full_name col.lineage.lineage_type))
        acc).1.nodes = acc.1.nodes) ∧
      ((inputs.foldl
        (fun (acc2 : GraphBuilder × List (String × Nat × List String)) inp =>
          let rw := resolveWithSubqueries inp.table sources statementIndex
            subqueryMap
          let b :=
            match rw.2 with
            | some w =>
              addWarning acc2.1 "unresolved_table" w statementIndex
                (columnRefContext inp)
            | none => acc2.1
          (b, depInsert acc2.2 rw.1.full_name col.lineage.lineage_type))
        acc).2 =
        (inputs.map (fun inp =>
          ((resolveWithSubqueries inp.table sources statementIndex
              subqueryMap).1.full_name,
           col.lineage.lineage_type))).foldl
          (fun m pr => depInsert m pr.1 pr.2) acc.2) := by
  intro inputs
  induction inputs with
  | nil => intro acc; exact ⟨rfl, rfl, rfl⟩
  | cons i is ih =>
    intro acc
    simp only [List.foldl_cons, List.map_cons]
    set b :=
      (match (resolveWithSubqueries i.table sources statementIndex
          subqueryMap).2 with
        | some w =>
          addWarning acc.1 "unresolved_table" w statementIndex
            (columnRefContext i)
        | none => acc.1) with hb
    have hedges : b.edges = acc.1.edges := by
      rw [hb]
      rcases (resolveWithSubqueries i.table sources statementIndex
        subqueryMap).2 with _ | w
      · rfl
      · rfl
    have hnodes : b.nodes = acc.1.nodes := by
      rw [hb]
      rcases (resolveWithSubqueries i.table sources statementIndex
        subqueryMap).2 with _ | w
      · rfl
      · rfl
    obtain ⟨ihe, ihn, ihm⟩ := ih
      (b, depInsert acc.2
        (resolveWithSubqueries i.table sources statementIndex
          subqueryMap).1.full_name col.lineage.lineage_type)
    refine ⟨?_, ?_, ?_⟩
    · rw [ihe]; exact hedges
    · rw [ihn]; exact hnodes
    · rw [ihm]

theorem tablesOnlyDepPass_spec (columns : List OutputColumn) :
    ∀ (stb : GraphBuilder) (sources : List SourceDict)
      (statementIndex : Nat) (subqueryMap : List (String × String)),
      (tablesOnlyDepPass stb columns sources statementIndex
        subqueryMap).1.edges = stb.edges ∧
      (tablesOnlyDepPass stb columns sources statementIndex
        subqueryMap).1.nodes = stb.nodes ∧
      (tablesOnlyDepPass stb columns sources statementIndex
        subqueryMap).2 =
        (tablesOnlyPairs columns sources statementIndex subqueryMap).foldl
          (fun m pr => depInsert m pr.1 pr.2) [] := by
  suffices h : ∀ (sources : List SourceDict) (statementIndex : Nat)
      (subqueryMap : List (String × String))
      (acc : GraphBuilder × List (String × Nat × List String)),
      ((columns.foldl
        (fun (acc : GraphBuilder × List (String × Nat × List String)) col =>
          col.lineage.inputs.foldl
            (fun (acc2 : GraphBuilder × List (String × Nat × List String))
                inp =>
              let rw := resolveWithSubqueries inp.table sources statementIndex
                subqueryMap
              let b :=
                match rw.2 with
                | some w =>
                  addWarning acc2.1 "unresolved_table" w statementIndex
                    (columnRefContext inp)
                | none => acc2.1
              (b, depInsert acc2.2 rw.1.full_name col.lineage.lineage_type))
            acc)
        acc).1.edges = acc.1.edges) ∧
      ((columns.foldl
        (fun (acc : GraphBuilder × List (String × Nat × List String)) col =>
          col.lineage.inputs.foldl
            (fun (acc2 : GraphBuilder × List (String × Nat × List String))
                inp =>
              let rw := resolveWithSubqueries inp.table sources statementIndex
                subqueryMap
              let b :=
                match rw.2 with
                | some w =>
                  addWarning acc2.1 "unresolved_table" w statementIndex
                    (columnRefContext inp)
                | none => acc2.1
              (b, depInsert acc2.2 rw.1.full_name col.lineage.lineage_type))
            acc)
        acc).1.nodes = acc.1.nodes) ∧
      ((columns.foldl
        (fun (acc : GraphBuilder × List (String × Nat × List String)) col =>
          col.lineage.inputs.foldl
            (fun (acc2 : GraphBuilder × List (String × Nat × List String))
                inp =>
              let rw := resolveWithSubqueries inp.table sources statementIndex
                subqueryMap
              let b :=
                match rw.2 with
                | some w =>
                  addWarning acc2.1 "unresolved_table" w statementIndex
                    (columnRefContext inp)
                | none => acc2.1
              (b, depInsert acc2.2 rw.1.full_name col.lineage.lineage_type))
            acc)
        acc).2 =
        (tablesOnlyPairs columns sources statementIndex subqueryMap).foldl
          (fun m pr => depInsert m pr.1 pr.2) acc.2) by
    intro stb sources statementIndex subqueryMap
    exact h sources statementIndex subqueryMap (stb, [])
  induction columns with
  | nil =>
    intro sources statementIndex subqueryMap acc
    exact ⟨rfl, rfl, rfl⟩
  | cons col cols ih =>
    intro sources statementIndex subqueryMap acc
    simp only [List.foldl_cons]
    obtain ⟨ie, inn, im⟩ := tablesOnlyDepPass_inner sources statementIndex
      subqueryMap col col.lineage.inputs acc
    obtain ⟨ihe, ihn, ihm⟩ := ih sources statementIndex subqueryMap
      (col.lineage.inputs.foldl
        (fun (acc2 : GraphBuilder × List (String × Nat × List String)) inp =>
          let rw := resolveWithSubqueries inp.table sources statementIndex
            subqueryMap
          let b :=
            match rw.2 with
            | some w =>
              addWarning acc2.1 "unresolved_table" w statementIndex
                (columnRefContext inp)
            | none => acc2.1
          (b, depInsert acc2.2 rw.1.full_name col.lineage.lineage_type))
        acc)
    refine ⟨?_, ?_, ?_⟩
    · rw [ihe, ie]
    · rw [ihn, inn]
    · rw [ihm, im]
      unfold tablesOnlyPairs
      rw [List.flatMap_cons, List.foldl_append]

/-- All node kinds the tables_only mode may register. -/
def tableLikeTypesOnly (st : GraphBuilder) : Prop :=
  ∀ n ∈ st.nodes, n.type = "table" ∨ n.type = "cte" ∨ n.type = "subquery"

theorem addNode_tableLike {st : GraphBuilder} {n : Node}
    (h : tableLikeTypesOnly st)
    (hn : n.type = "table" ∨ n.type = "cte" ∨ n.type = "subquery") :
    tableLikeTypesOnly (addNode st n) := by
  intro m hm
  rcases addNode_nodes_cases st n with hc | hc <;> rw [hc] at hm
  · exact h m hm
  · rcases List.mem_append.mp hm with hm2 | hm2
    · exact h m hm2
    · rcases List.mem_singleton.mp hm2 with rfl
      exact hn

theorem addSourceNodes_tableLike {st : GraphBuilder}
    (sources : List SourceDict) (idx : Nat)
    (sqmap : List (String × String)) (h : tableLikeTypesOnly st) :
    tableLikeTypesOnly (addSourceNodes st sources idx sqmap) := by
  unfold addSourceNodes
  refine foldl_builder_preserves tableLikeTypesOnly _ ?_ sources st h
  intro b s hb
  dsimp only
  by_cases h1 : s.type = "table"
  · rw [if_pos h1]; exact addNode_tableLike hb (Or.inl rfl)
  · rw [if_neg h1]
    by_cases h2 : s.type = "cte"
    · rw [if_pos h2]; exact addNode_tableLike hb (Or.inr (Or.inl rfl))
    · rw [if_neg h2]
      by_cases h3 : s.type = "subquery"
      · rw [if_pos h3]; exact addNode_tableLike hb (Or.inr (Or.inr rfl))
      · rw [if_neg h3]; exact addNode_tableLike hb (Or.inl rfl)

theorem addTableNode_tableLike {st : GraphBuilder} (t : TargetTable)
    (idx : Nat) {ty : String} (d : String) (h : tableLikeTypesOnly st)
    (hty : ty = "table" ∨ ty = "cte" ∨ ty = "subquery") :
    tableLikeTypesOnly (addTableNode st t idx ty d) := by
  unfold addTableNode
  exact addNode_tableLike h hty

theorem processTablesOnlyStatement_tableLike {st : GraphBuilder}
    (stmt : Stmt) (h : tableLikeTypesOnly st) :
    tableLikeTypesOnly (processTablesOnlyStatement st stmt) := by
  unfold processTablesOnlyStatement
  have h1 := addSourceNodes_tableLike stmt.sources stmt.index
    (buildSubqueryMap stmt.index stmt.sources) h
  cases htgt : targetTableFromStatement stmt with
  | none =>
    simp only [htgt]
    exact h1
  | some tgt =>
    simp only [htgt]
    have h2 := addTableNode_tableLike tgt stmt.index "Target table" h1
      (Or.inl rfl)
    obtain ⟨_, hnodes, _⟩ := tablesOnlyDepPass_spec stmt.columns
      (addTableNode
        (addSourceNodes st stmt.sources stmt.index
          (buildSubqueryMap stmt.index stmt.sources))
        tgt stmt.index "table" "Target table")
      stmt.sources stmt.index (buildSubqueryMap stmt.index stmt.sources)
    have h3 : tableLikeTypesOnly
        (tablesOnlyDepPass
          (addTableNode
            (addSourceNodes st stmt.sources stmt.index
              (buildSubqueryMap stmt.index stmt.sources))
            tgt stmt.index "table" "Target table")
          stmt.columns stmt.sources stmt.index
          (buildSubqueryMap stmt.index stmt.sources)).1 := by
      intro m hm
      rw [hnodes] at hm
      exact h2 m hm
    refine foldl_builder_preserves tableLikeTypesOnly _ ?_ _ _ h3
    intro b e hb
    intro m hm
    rw [addEdge_nodes] at hm
    exact hb m hm

theorem buildTablesOnlyGraph_tableLike (sts : List Stmt) :
    tableLikeTypesOnly (buildTablesOnlyGraph {} sts) := by
  unfold buildTablesOnlyGraph
  refine foldl_builder_preserves tableLikeTypesOnly _ ?_ sts {} ?_
  · intro st s hs
    exact processTablesOnlyStatement_tableLike s hs
  · intro n hn
    simp at hn

/-- The table_lineage edges of one tables_only statement, stated in the
amended claim's counting terms: one edge per distinct resolved source name
(first-seen order), whose columns_count is the total number of
(output column, input) pairs resolving to that source and whose via is the
sorted distinct list of lineage types observed. -/
def tablesOnlyEdgesSpec (stmt : Stmt) (tgt : TargetTable) :
    List (String × String × EdgeDetails) :=
  let sqmap := buildSubqueryMap stmt.index stmt.sources
  let pairs := tablesOnlyPairs stmt.columns stmt.sources stmt.index sqmap
  (depFoldSpec pairs).map (fun e =>
    (tableNodeIdFromSourceName e.1 stmt.sources stmt.index sqmap,
     tableId tgt.full_name,
     { columns_count := e.2.1, via := sortedStrings e.2.2 }))

/-- C3 as amended: tables_only mode emits only table/cte/subquery nodes
(never column-level ones); a statement with a target emits exactly one
table_lineage edge per distinct resolved source name, whose columns_count
is the total number of (output column, input reference) pairs resolving to
that source — not the number of output columns and not the number of
distinct columns — and whose via is the sorted distinct set of lineage
types observed. -/
theorem claim_C3_amended (st : GraphBuilder) (stmt : Stmt)
    (tgt : TargetTable) (sts : List Stmt) (n : Node)
    (htgt : targetTableFromStatement stmt = some tgt)
    (hn : n ∈ (buildTablesOnlyGraph {} sts).nodes) :
    (∃ E, (processTablesOnlyStatement st stmt).edges = st.edges ++ E ∧
      E.map (fun e => (e.from_, e.to_, e.details)) =
        tablesOnlyEdgesSpec stmt tgt ∧
      ∀ ed ∈ E, ed.type = "table_lineage" ∧
        ed.statement_index = stmt.index) ∧
    (n.type = "table" ∨ n.type = "cte" ∨ n.type = "subquery") := by
  refine ⟨?_, buildTablesOnlyGraph_tableLike sts n hn⟩
  unfold processTablesOnlyStatement
  simp only [htgt]
  obtain ⟨hpe, hpn, hpm⟩ := tablesOnlyDepPass_spec stmt.columns
    (addTableNode
      (addSourceNodes st stmt.sources stmt.index
        (buildSubqueryMap stmt.index stmt.sources))
      tgt stmt.index "table" "Target table")
    stmt.sources stmt.index (buildSubqueryMap stmt.index stmt.sources)
  obtain ⟨E, hE, hproj, hty⟩ := foldl_addEdge_exists "table_lineage"
    (fun (e : String × Nat × List String) =>
      tableNodeIdFromSourceName e.1 stmt.sources stmt.index
        (buildSubqueryMap stmt.index stmt.sources))
    (fun _ => tableId tgt.full_name) "Table-level lineage" stmt.index
    (fun (e : String × Nat × List String) =>
      { columns_count := e.2.1, via := sortedStrings e.2.2 })
    (tablesOnlyDepPass
      (addTableNode
        (addSourceNodes st stmt.sources stmt.index
          (buildSubqueryMap stmt.index stmt.sources))
        tgt stmt.index "table" "Target table")
      stmt.columns stmt.sources stmt.index
      (buildSubqueryMap stmt.index stmt.sources)).2
    (tablesOnlyDepPass
      (addTableNode
        (addSourceNodes st stmt.sources stmt.index
          (buildSubqueryMap stmt.index stmt.sources))
        tgt stmt.index "table" "Target table")
      stmt.columns stmt.sources stmt.index
      (buildSubqueryMap stmt.index stmt.sources)).1
  refine ⟨E, ?_, ?_, hty⟩
  · rw [hE, hpe, addTableNode_edges, addSourceNodes_edges]
  · rw [hproj, hpm, depFold_eq_spec]
    rfl

/-- Fixture for C3: `CREATE TABLE out AS SELECT a AS v, b + c AS w FROM t`
— one renamed column and one two-input expression column over the single
source table t. -/
def toStmt : Stmt :=
  { index := 1
    target := some { name := "out", database := "", raw := "out" }
    columns :=
      [{ name := "v", expression := "a"
         lineage :=
           { lineage_type := "column_rename"
             inputs := [{ table := some "t", column := "a" }]
             mapping := [{ output_column := "v"
                           sources := [{ table := some "t", column := "a" }]
                           reason := "alias" }]
             functions := [], literals := [], notes := [] }
         dependencies := [{ table := "t", columns := ["a"] }] },
       { name := "w", expression := "b + c"
         lineage :=
           { lineage_type := "expression"
             inputs := [{ table := some "t", column := "b" },
                        { table := some "t", column := "c" }]
             mapping := [{ output_column := "w"
                           sources := [{ table := some "t", column := "b" },
                                       { table := some "t", column := "c" }]
                           reason := "expression" }]
             functions := [], literals := [], notes := [] }
         dependencies := [{ table := "t", columns := ["b", "c"] }] }]
    sources := [{ type := "table", name := "t", database := "",
                  alias_ := "" }] }

/-- Counterexample for C3: the single table_lineage edge for (t, out)
carries columns_count 3 — the number of input references — while only 2
output columns derive from t, and its via list holds the lineage types
(column_rename), not the distinct mapping reasons (alias). -/
theorem claim_C3_cex :
    (processTablesOnlyStatement {} toStmt).edges.map
        (fun e => (e.from_, e.to_, e.details.columns_count,
          e.details.via)) =
      [("table:t", "table:out", 3, ["column_rename", "expression"])] ∧
    (toStmt.columns.filter (fun c =>
      c.lineage.inputs.any (fun i =>
        (resolveWithSubqueries i.table toStmt.sources 1 []).1.full_name =
          "t"))).length = 2 ∧
    (3 : Nat) ≠ 2 ∧
    determineLineageType true [] false = ("column_rename", "alias") ∧
    sortedDedupStr (toStmt.columns.flatMap (fun c =>
      c.lineage.mapping.map (fun m => m.reason))) =
      ["alias", "expression"] ∧
    (["column_rename", "expression"] : List String) ≠
      ["alias", "expression"] := by
  refine ⟨by decide, by decide, by decide, by decide, by decide, by decide⟩

/-- Witness for the amended C3 at the concrete fixture statement. -/
theorem claim_C3_amended_witness :
    (∃ E, (processTablesOnlyStatement {} toStmt).edges = [] ++ E ∧
      E.map (fun e => (e.from_, e.to_, e.details)) =
        tablesOnlyEdgesSpec toStmt
          { full_name := "out", database := "", name := "out",
            schema := "" } ∧
      ∀ ed ∈ E, ed.type = "table_lineage" ∧
        ed.statement_index = toStmt.index) ∧
    (({ id := "table:t", type := "table", name := "t", database := "",
        schema := "", full_name := "t", statement_index := 1,
        description := "Source table" } : Node).type = "table" ∨
      ({ id := "table:t", type := "table", name := "t", database := "",
         schema := "", full_name := "t", statement_index := 1,
         description := "Source table" } : Node).type = "cte" ∨
      ({ id := "table:t", type := "table", name := "t", database := "",
         schema := "", full_name := "t", statement_index := 1,
         description := "Source table" } : Node).type = "subquery") :=
  claim_C3_amended {} toStmt
    { full_name := "out", database := "", name := "out", schema := "" }
    [toStmt]
    { id := "table:t", type := "table", name := "t", database := "",
      schema := "", full_name := "t", statement_index := 1,
      description := "Source table" }
    (by decide) (by decide)

/-! ## C7: join edges -/

/-- The joins_with edges of one statement, in the amended claim's words:
one edge per join whose right side is a plain table dict (others are
skipped), from the node of the first table-typed entry of the statement's
reported sources (the unknown placeholder when none exists) to the node of
the joined relation, carrying the join kind and condition. -/
def joinEdgesSpec (sources : List SourceDict) (joins : List JoinInfo)
    (statementIndex : Nat) (subqueryMap : List (String × String)) :
    List (String × String × EdgeDetails) :=
  let leftName :=
    match (sources.filter (fun s => s.type = "table")).head? with
    | some s => s.name
    | none => "unknown"
  joins.filterMap (fun join =>
    join.right.map (fun right =>
      (tableNodeIdFromSourceName leftName sources statementIndex subqueryMap,
       tableNodeIdFromSourceName right.name sources statementIndex
         subqueryMap,
       ({ join_condition := join.condition,
          join_type := join.join_type } : EdgeDetails))))

/-- C7 as amended: in full graph mode one joins_with edge is added per JOIN
clause whose right side is a plain table (joins to other relation kinds add
no edge); the edge's left endpoint is the node of the first table-typed
source among the statement's reported sources — which lists base tables
discovered inside CTEs/subqueries before the immediate FROM/JOIN tables —
or an unknown placeholder when no table-typed source exists, the right
endpoint is the node of the joined relation, and the details carry the join
kind and the rendered condition text. -/
theorem addJoinEdges_fold (sources : List SourceDict)
    (statementIndex : Nat) (subqueryMap : List (String × String))
    (l : String) :
    ∀ (joins : List JoinInfo) (st : GraphBuilder),
      ∃ E, (joins.foldl
          (fun b join =>
            match join.right with
            | none => b
            | some right =>
              addEdge b "joins_with"
                (tableNodeIdFromSourceName l sources statementIndex
                  subqueryMap)
                (tableNodeIdFromSourceName right.name sources statementIndex
                  subqueryMap)
                "Tables joined" statementIndex
                { join_condition := join.condition,
                  join_type := join.join_type })
          st).edges = st.edges ++ E ∧
        E.map (fun e => (e.from_, e.to_, e.details)) =
          joins.filterMap (fun join =>
            join.right.map (fun right =>
              (tableNodeIdFromSourceName l sources statementIndex subqueryMap,
               tableNodeIdFromSourceName right.name sources statementIndex
                 subqueryMap,
               ({ join_condition := join.condition,
                  join_type := join.join_type } : EdgeDetails)))) ∧
        ∀ ed ∈ E, ed.type = "joins_with" ∧
          ed.statement_index = statementIndex := by
  intro joins
  induction joins with
  | nil => exact fun st => ⟨[], by simp, by simp, by simp⟩
  | cons j js ih =>
    intro st
    rcases hr : j.right with _ | right
    · simp only [List.foldl_cons, List.filterMap_cons, hr]
      exact ih st
    · simp only [List.foldl_cons, List.filterMap_cons, hr, Option.map_some]
      obtain ⟨E, hE, hproj, hty⟩ := ih
        (addEdge st "joins_with"
          (tableNodeIdFromSourceName l sources statementIndex subqueryMap)
          (tableNodeIdFromSourceName right.name sources statementIndex
            subqueryMap)
          "Tables joined" statementIndex
          { join_condition := j.condition, join_type := j.join_type })
      refine ⟨{ id := "edge:" ++ "joins_with" ++ ":" ++
                  toString (st.edgeCount + 1),
                type := "joins_with",
                from_ := tableNodeIdFromSourceName l sources statementIndex
                  subqueryMap,
                to_ := tableNodeIdFromSourceName right.name sources
                  statementIndex subqueryMap,
                description := "Tables joined",
                statement_index := statementIndex,
                details := { join_condition := j.condition,
                             join_type := j.join_type } } :: E, ?_, ?_, ?_⟩
      · rw [hE]
        simp [addEdge]
      · simp only [List.map_cons, hproj]
        rfl
      · intro ed hed
        rcases List.mem_cons.mp hed with rfl | hed2
        · exact ⟨rfl, rfl⟩
        · exact hty ed hed2

/-- C7 as amended: in full graph mode one joins_with edge is added per JOIN
clause whose right side is a plain table (joins to other relation kinds add
no edge); the edge's left endpoint is the node of the first table-typed
source among the statement's reported sources (which lists base tables
discovered inside CTEs/subqueries before the immediate FROM/JOIN tables),
or an unknown placeholder when no table-typed source exists; the right
endpoint is the node of the joined relation, and the details carry the join
kind and the rendered condition text. -/
theorem claim_C7_amended (st : GraphBuilder) (sources : List SourceDict)
    (stmt : Stmt) (statementIndex : Nat)
    (subqueryMap : List (String × String)) :
    ∃ E, (addJoinEdges st sources stmt statementIndex subqueryMap).edges =
        st.edges ++ E ∧
      E.map (fun e => (e.from_, e.to_, e.details)) =
        joinEdgesSpec sources stmt.joins statementIndex subqueryMap ∧
      ∀ ed ∈ E, ed.type = "joins_with" ∧
        ed.statement_index = statementIndex := by
  obtain ⟨E, h1, h2, h3⟩ := addJoinEdges_fold sources statementIndex
    subqueryMap
    (match (sources.filter (fun s => s.type = "table")).head? with
     | some s => s.name
     | none => "unknown")
    stmt.joins st
  exact ⟨E, h1, h2, h3⟩

/-- The base tables u and v appearing immediately in the FROM/JOIN clause
of the C7 fixture statement. -/
def uImm : SourceInfo :=
  { name := "u", alias_ := "", database := "", source_type := "table",
    output_inputs := [] }

/-- See uImm. -/
def vImm : SourceInfo :=
  { name := "v", alias_ := "", database := "", source_type := "table",
    output_inputs := [] }

/-- The CTE declaration `c AS (SELECT x FROM t)` of the C7 fixture. -/
def cDecl : CteDecl :=
  { name := "c"
    analysis :=
      { sources := [{ type := "table", name := "t", database := "",
                      alias_ := "" }]
        columns := [{ name := "x", expression := "x"
                      lineage :=
                        { lineage_type := "column_rename"
                          inputs := [{ table := some "t", column := "x" }]
                          mapping := [], functions := [], literals := []
                          notes := [] }
                      dependencies := [] }]
        joins := [] } }

/-- The reported sources of
`WITH c AS (SELECT x FROM t) SELECT ... FROM u JOIN v` as build_context
serializes them: the CTE and its nested base table first, then the
immediate tables. -/
def c7Sources : List SourceDict :=
  (buildContext [cDecl] [] [uImm, vImm] "clickhouse").report_sources.map
    SourceInfo.toDict

/-- The C7 fixture statement: two joins, the first to a non-table relation
(right = None), the second to table v. -/
def c7Stmt : Stmt :=
  { index := 1
    sources := c7Sources
    joins := [{ join_type := "inner", right := none, condition := "" },
              { join_type := "inner"
                right := some { type := "table", name := "v",
                                database := "", alias_ := "" }
                condition := "u.id = v.id" }] }

/-- Counterexample for C7: the statement's first immediate table is u, yet
the joins_with edge's left endpoint is the node of t — the base table
discovered inside the CTE, which precedes the immediate tables in the
reported sources — and only one edge is emitted for the two JOIN clauses
because the right side of the first is not a plain table. -/
theorem claim_C7_cex :
    (buildContext [cDecl] [] [uImm, vImm]
      "clickhouse").active_identifiers.head? = some "u" ∧
    c7Sources.map (fun s => (s.type, s.name)) =
      [("cte", "c"), ("table", "t"), ("table", "u"), ("table", "v")] ∧
    c7Stmt.joins.length = 2 ∧
    (addJoinEdges {} c7Stmt.sources c7Stmt 1
        (buildSubqueryMap 1 c7Stmt.sources)).edges.map
      (fun e => (e.from_, e.to_)) = [("table:t", "table:v")] ∧
    ("table:t" : String) ≠ "table:" ++ "u" ∧
    (addJoinEdges {} c7Stmt.sources c7Stmt 1
        (buildSubqueryMap 1 c7Stmt.sources)).edges.length = 1 ∧
    (1 : Nat) ≠ 2 := by
  refine ⟨by decide, by decide, by decide, by decide, by decide, by decide,
    by decide⟩

/-! ## C8: mermaid_er export fallback on a full-mode graph -/

theorem joinLines_data_of_cons (x : String) (l : List String) :
    ∃ r : List Char, (joinLines (x :: l)).data = x.data ++ r := by
  cases l with
  | nil => exact ⟨[], by simp [joinLines]⟩
  | cons y ys =>
    refine ⟨"\n".data ++ (joinLines (y :: ys)).data, ?_⟩
    show ((x ++ "\n") ++ joinLines (y :: ys)).data = _
    rw [String.data_append, String.data_append, List.append_assoc]

theorem exportMermaidFlowchart_flowchart (g : Graph) :
    List.IsPrefix "flowchart".data (exportMermaidFlowchart g).data := by
  unfold exportMermaidFlowchart
  obtain ⟨r, hr⟩ := joinLines_data_of_cons "flowchart LR"
    ((g.nodes.map
      (fun n =>
        "  " ++ mermaidId n.id ++ (nodeShape n.type).1 ++ mermaidLabel n ++
          (nodeShape n.type).2)) ++
     (g.edges.map
      (fun e =>
        "  " ++ mermaidId e.from_ ++ " -->|" ++ e.type ++ "| " ++
          mermaidId e.to_)))
  rw [hr]
  have h1 : List.IsPrefix "flowchart".data "flowchart LR".data := by decide
  exact h1.trans (List.prefix_append _ r)

/-- C8: requesting the mermaid_er export format against a full-mode graph
appends an error to the graph and falls back to the mermaid_flowchart
renderer, returning text that begins with "flowchart". -/
theorem claim_C8 (g : Graph) (hmode : g.mode = "full") :
    (exportGraph g "mermaid_er").1.errors = g.errors ++
      ["Mermaid ER export is only supported for er_columns or tables_only modes."] ∧
    (exportGraph g "mermaid_er").2 =
      exportMermaidFlowchart (exportGraph g "mermaid_er").1 ∧
    List.IsPrefix "flowchart".data (exportGraph g "mermaid_er").2.data := by
  have hdispatch : exportGraph g "mermaid_er" =
      (appendError g
        "Mermaid ER export is only supported for er_columns or tables_only modes.",
       exportMermaidFlowchart (appendError g
        "Mermaid ER export is only supported for er_columns or tables_only modes.")) := by
    unfold exportGraph
    rw [if_neg (by decide), if_neg (by decide), if_pos (by decide),
      if_neg (by rw [hmode]; decide)]
  rw [hdispatch]
  refine ⟨rfl, rfl, ?_⟩
  exact exportMermaidFlowchart_flowchart _

/-- A full-mode graph with one node, for the C8 witness. -/
def gFull : Graph :=
  { mode := "full"
    nodes := [{ id := "table:t", type := "table", full_name := "t" }]
    edges := []
    errors := ["e0"] }

/-- Witness for C8 at the concrete full-mode graph. -/
theorem claim_C8_witness :
    (exportGraph gFull "mermaid_er").1.errors = gFull.errors ++
      ["Mermaid ER export is only supported for er_columns or tables_only modes."] ∧
    (exportGraph gFull "mermaid_er").2 =
      exportMermaidFlowchart (exportGraph gFull "mermaid_er").1 ∧
    List.IsPrefix "flowchart".data (exportGraph gFull "mermaid_er").2.data :=
  claim_C8 gFull rfl

/-! ## C10: the synthetic unknown target table -/

theorem take_append_left (p q : String) (n : Nat)
    (hn : n ≤ p.data.length) :
    ((p ++ q).data).take n = p.data.take n := by
  rw [String.data_append]
  exact List.take_append_of_le_length hn

theorem ne_of_data_take (n : Nat) {a b : String}
    (h : a.data.take n ≠ b.data.take n) : a ≠ b :=
  fun hc => h (by rw [hc])

theorem tableId_inj {a b : String} (h : tableId a = tableId b) : a = b := by
  unfold tableId at h
  have hd := congrArg String.data h
  rw [String.data_append, String.data_append] at hd
  have h2 := List.append_cancel_left hd
  cases a; cases b
  exact congrArg String.mk h2

theorem cteId_ne_tableUnknown (a : String) : cteId a ≠ "table:unknown" := by
  refine ne_of_data_take 1 ?_
  rw [show cteId a = "cte:" ++ a from rfl, take_append_left _ _ 1 (by decide)]
  decide

theorem cteId_ne_columnUnknown (a b : String) :
    cteId a ≠ columnId "unknown" b := by
  refine ne_of_data_take 4 ?_
  rw [show cteId a = "cte:" ++ a from rfl,
    take_append_left _ _ 4 (by decide)]
  rw [show columnId "unknown" b =
    ("column:" ++ "unknown" ++ ".") ++ b from rfl,
    take_append_left _ _ 4 (by decide)]
  decide

theorem subqueryRaw_ne_tableUnknown (idx : Nat) (nm : String) :
    "subquery:" ++ toString idx ++ ":" ++ nm ≠ "table:unknown" := by
  have h9 : ("subquery:".data).length = 9 := by decide
  have l1 : 1 ≤ ("subquery:" ++ toString idx).data.length := by
    rw [String.data_append, List.length_append]
    omega
  have l2 : 1 ≤ (("subquery:" ++ toString idx) ++ ":").data.length := by
    rw [String.data_append, List.length_append]
    omega
  refine ne_of_data_take 1 ?_
  rw [show "subquery:" ++ toString idx ++ ":" ++ nm =
    (("subquery:" ++ toString idx) ++ ":") ++ nm from rfl,
    take_append_left _ _ 1 l2, take_append_left _ _ 1 l1,
    take_append_left _ _ 1 (by decide)]
  decide

theorem subqueryRaw_ne_columnUnknown (idx : Nat) (nm b : String) :
    "subquery:" ++ toString idx ++ ":" ++ nm ≠ columnId "unknown" b := by
  have h9 : ("subquery:".data).length = 9 := by decide
  have l1 : 1 ≤ ("subquery:" ++ toString idx).data.length := by
    rw [String.data_append, List.length_append]
    omega
  have l2 : 1 ≤ (("subquery:" ++ toString idx) ++ ":").data.length := by
    rw [String.data_append, List.length_append]
    omega
  refine ne_of_data_take 1 ?_
  rw [show "subquery:" ++ toString idx ++ ":" ++ nm =
    (("subquery:" ++ toString idx) ++ ":") ++ nm from rfl,
    take_append_left _ _ 1 l2, take_append_left _ _ 1 l1,
    take_append_left _ _ 1 (by decide)]
  rw [show columnId "unknown" b =
    ("column:" ++ "unknown" ++ ".") ++ b from rfl,
    take_append_left _ _ 1 (by decide)]
  decide

theorem subqueryId_ne_tableUnknown (idx c : Nat) :
    subqueryId idx c ≠ "table:unknown" :=
  subqueryRaw_ne_tableUnknown idx (toString c)

theorem subqueryId_ne_columnUnknown (idx c : Nat) (b : String) :
    subqueryId idx c ≠ columnId "unknown" b :=
  subqueryRaw_ne_columnUnknown idx (toString c) b

theorem tableId_ne_columnUnknown (a b : String) :
    tableId a ≠ columnId "unknown" b := by
  refine ne_of_data_take 1 ?_
  rw [show tableId a = "table:" ++ a from rfl,
    take_append_left _ _ 1 (by decide)]
  rw [show columnId "unknown" b =
    ("column:" ++ "unknown" ++ ".") ++ b from rfl,
    take_append_left _ _ 1 (by decide)]
  decide

theorem tableUnknown_ne_columnUnknown (b : String) :
    ("table:unknown" : String) ≠ columnId "unknown" b := by
  refine ne_of_data_take 1 ?_
  rw [show columnId "unknown" b =
    ("column:" ++ "unknown" ++ ".") ++ b from rfl,
    take_append_left _ _ 1 (by decide)]
  decide

/-- Ids are pairwise distinct in the node map (Python dict keys). -/
def nodupIds (st : GraphBuilder) : Prop :=
  (st.nodes.map Node.id).Nodup

theorem addNode_fresh {st : GraphBuilder} {n : Node}
    (h : ∀ m ∈ st.nodes, m.id ≠ n.id) :
    (addNode st n).nodes = st.nodes ++ [n] := by
  unfold addNode
  rw [if_neg ?_]
  intro hc
  rw [List.any_eq_true] at hc
  obtain ⟨m, hm, hmid⟩ := hc
  exact h m hm (by simpa using hmid)

theorem addNode_nodupIds {st : GraphBuilder} {n : Node}
    (h : nodupIds st) : nodupIds (addNode st n) := by
  unfold addNode
  by_cases hc : st.nodes.any (fun m => m.id = n.id)
  · rw [if_pos hc]
    exact h
  · rw [if_neg hc]
    unfold nodupIds at h ⊢
    rw [List.map_append, List.map_singleton]
    rw [List.nodup_append]
    refine ⟨h, List.nodup_singleton _, ?_⟩
    intro x hx hy
    rw [List.mem_singleton] at hy
    subst hy
    rw [List.mem_map] at hx
    obtain ⟨m, hm, hmeq⟩ := hx
    rw [List.any_eq_true] at hc
    exact hc ⟨m, hm, by simpa using hmeq⟩

theorem countP_id_eq_one {nodes : List Node} {tid : String}
    (hnd : (nodes.map Node.id).Nodup) {x : Node} (hx : x ∈ nodes)
    (hid : x.id = tid) :
    nodes.countP (fun n => n.id = tid) = 1 := by
  induction nodes with
  | nil => simp at hx
  | cons y ys ih =>
    rw [List.map_cons, List.nodup_cons] at hnd
    by_cases hy : y.id = tid
    · rw [List.countP_cons_of_pos _ _ (by simpa using hy)]
      have h0 : ys.countP (fun n => n.id = tid) = 0 := by
        rw [List.countP_eq_zero]
        intro m hm
        simp only [decide_eq_true_eq]
        intro hmid
        exact hnd.1 (by
          rw [hy, ← hmid]
          exact List.mem_map_of_mem Node.id hm)
      rw [h0]
    · rw [List.countP_cons_of_neg _ _ (by simpa using hy)]
      rcases List.mem_cons.mp hx with rfl | hx2
      · exact absurd hid hy
      · exact ih hnd.2 hx2

/-- Post-state nodes extend pre-state nodes (the builder only appends). -/
def growsTo (st st2 : GraphBuilder) : Prop := st.nodes <+: st2.nodes

theorem growsTo_refl (st : GraphBuilder) : growsTo st st :=
  List.prefix_refl _

theorem growsTo_trans {a b c : GraphBuilder} (h1 : growsTo a b)
    (h2 : growsTo b c) : growsTo a c :=
  List.IsPrefix.trans h1 h2

theorem addNode_grow (st : GraphBuilder) (n : Node) :
    growsTo st (addNode st n) := by
  rcases addNode_nodes_cases st n with hc | hc
  · unfold growsTo
    rw [hc]
  · unfold growsTo
    rw [hc]
    exact List.prefix_append _ _

theorem addEdge_grow (st : GraphBuilder) (ty f t d : String) (i : Nat)
    (det : EdgeDetails) : growsTo st (addEdge st ty f t d i det) :=
  growsTo_refl st

theorem addWarning_grow (st : GraphBuilder) (c m : String) (i : Nat)
    (x : String) : growsTo st (addWarning st c m i x) :=
  growsTo_refl st

theorem foldl_grow {α : Type} (f : GraphBuilder → α → GraphBuilder)
    (hf : ∀ st a, growsTo st (f st a)) :
    ∀ (l : List α) (st : GraphBuilder), growsTo st (l.foldl f st) := by
  intro l
  induction l with
  | nil => intro st; exact growsTo_refl st
  | cons a as ih =>
    intro st
    exact growsTo_trans (hf st a) (ih (f st a))

theorem mem_of_growsTo {st st2 : GraphBuilder} (h : growsTo st st2)
    {n : Node} (hn : n ∈ st.nodes) : n ∈ st2.nodes :=
  h.subset hn

theorem addSourceNodes_grow (st : GraphBuilder) (sources : List SourceDict)
    (idx : Nat) (sqmap : List (String × String)) :
    growsTo st (addSourceNodes st sources idx sqmap) := by
  unfold addSourceNodes
  refine foldl_grow _ ?_ sources st
  intro b s
  dsimp only
  by_cases h1 : s.type = "table"
  · rw [if_pos h1]; exact addNode_grow _ _
  · rw [if_neg h1]
    by_cases h2 : s.type = "cte"
    · rw [if_pos h2]; exact addNode_grow _ _
    · rw [if_neg h2]
      by_cases h3 : s.type = "subquery"
      · rw [if_pos h3]; exact addNode_grow _ _
      · rw [if_neg h3]; exact addNode_grow _ _

theorem addTableNode_grow (st : GraphBuilder) (t : TargetTable) (idx : Nat)
    (ty d : String) : growsTo st (addTableNode st t idx ty d) := by
  unfold addTableNode
  exact addNode_grow _ _

theorem addOutputColumnGraph_grow (st : GraphBuilder) (oc : OutputColumn)
    (idx : Nat) (tgt : Option TargetTable) (sources : List SourceDict)
    (sqmap : List (String × String)) :
    growsTo st (addOutputColumnGraph st oc idx tgt sources sqmap) := by
  unfold addOutputColumnGraph
  refine growsTo_trans ?_ (foldl_grow _ ?_ _ _)
  · repeat
      first
        | exact growsTo_refl _
        | exact addNode_grow _ _
        | refine growsTo_trans ?_ (addNode_grow _ _)
        | refine growsTo_trans ?_ (addEdge_grow _ _ _ _ _ _ _)
        | refine growsTo_trans ?_ (addWarning_grow _ _ _ _ _)
        | split
  · intro b inp
    dsimp only
    repeat
      first
        | exact growsTo_refl _
        | exact addNode_grow _ _
        | refine growsTo_trans ?_ (addNode_grow _ _)
        | refine growsTo_trans ?_ (addEdge_grow _ _ _ _ _ _ _)
        | refine growsTo_trans ?_ (addWarning_grow _ _ _ _ _)
        | split

theorem addEdge_nodupIds {st : GraphBuilder} (ty f t d : String) (i : Nat)
    (det : EdgeDetails) (h : nodupIds st) :
    nodupIds (addEdge st ty f t d i det) := by
  unfold nodupIds at h ⊢
  rw [addEdge_nodes]
  exact h

theorem addWarning_nodupIds {st : GraphBuilder} (c m : String) (i : Nat)
    (x : String) (h : nodupIds st) : nodupIds (addWarning st c m i x) := by
  unfold nodupIds at h ⊢
  rw [addWarning_nodes]
  exact h

theorem addSourceNodes_nodupIds {st : GraphBuilder}
    (sources : List SourceDict) (idx : Nat)
    (sqmap : List (String × String)) (h : nodupIds st) :
    nodupIds (addSourceNodes st sources idx sqmap) := by
  unfold addSourceNodes
  refine foldl_builder_preserves nodupIds _ ?_ sources st h
  intro b s hb
  dsimp only
  repeat
    first
      | exact hb
      | refine addNode_nodupIds ?_
      | split

theorem addTableNode_nodupIds {st : GraphBuilder} (t : TargetTable)
    (idx : Nat) (ty d : String) (h : nodupIds st) :
    nodupIds (addTableNode st t idx ty d) := by
  unfold addTableNode
  repeat
    first
      | exact h
      | refine addNode_nodupIds ?_
      | split

theorem addOutputColumnGraph_nodupIds {st : GraphBuilder}
    (oc : OutputColumn) (idx : Nat) (tgt : Option TargetTable)
    (sources : List SourceDict) (sqmap : List (String × String))
    (h : nodupIds st) :
    nodupIds (addOutputColumnGraph st oc idx tgt sources sqmap) := by
  unfold addOutputColumnGraph
  refine foldl_builder_preserves nodupIds _ ?_ _ _ ?_
  · intro b inp hb
    dsimp only
    repeat
      first
        | exact hb
        | refine addNode_nodupIds ?_
        | refine addEdge_nodupIds _ _ _ _ _ _ ?_
        | refine addWarning_nodupIds _ _ _ _ ?_
        | split
  · repeat
      first
        | exact h
        | refine addNode_nodupIds ?_
        | refine addEdge_nodupIds _ _ _ _ _ _ ?_
        | refine addWarning_nodupIds _ _ _ _ ?_
        | split

theorem addJoinEdges_grow (st : GraphBuilder) (sources : List SourceDict)
    (stmt : Stmt) (idx : Nat) (sqmap : List (String × String)) :
    growsTo st (addJoinEdges st sources stmt idx sqmap) := by
  unfold addJoinEdges
  refine foldl_grow _ ?_ _ _
  intro b j
  dsimp only
  repeat
    first
      | exact growsTo_refl _
      | refine growsTo_trans ?_ (addEdge_grow _ _ _ _ _ _ _)
      | split

theorem addJoinEdges_nodupIds {st : GraphBuilder} (sources : List SourceDict)
    (stmt : Stmt) (idx : Nat) (sqmap : List (String × String))
    (h : nodupIds st) : nodupIds (addJoinEdges st sources stmt idx sqmap) := by
  unfold addJoinEdges
  refine foldl_builder_preserves nodupIds _ ?_ _ _ h
  intro b j hb
  dsimp only
  repeat
    first
      | exact hb
      | refine addEdge_nodupIds _ _ _ _ _ _ ?_
      | split

theorem addUnionEdges_grow (st : GraphBuilder) (sources : List SourceDict)
    (stmt : Stmt) (idx : Nat) (tgt : Option TargetTable) :
    growsTo st (addUnionEdges st sources stmt idx tgt) := by
  unfold addUnionEdges
  repeat
    first
      | exact growsTo_refl _
      | refine foldl_grow _ ?_ _ _
      | split
  intro b s2
  dsimp only
  repeat
    first
      | exact growsTo_refl _
      | refine growsTo_trans ?_ (addEdge_grow _ _ _ _ _ _ _)
      | split

theorem addUnionEdges_nodupIds {st : GraphBuilder} (sources : List SourceDict)
    (stmt : Stmt) (idx : Nat) (tgt : Option TargetTable) (h : nodupIds st) :
    nodupIds (addUnionEdges st sources stmt idx tgt) := by
  unfold addUnionEdges
  split
  · exact h
  · split
    · exact h
    · refine foldl_builder_preserves nodupIds _ ?_ _ _ h
      intro b s2 hb
      dsimp only
      repeat
        first
          | exact hb
          | refine addEdge_nodupIds _ _ _ _ _ _ ?_
          | split

theorem processFullStatement_grow (st : GraphBuilder) (stmt : Stmt) :
    growsTo st (processFullStatement st stmt) := by
  unfold processFullStatement
  refine growsTo_trans ?_ (addUnionEdges_grow _ _ _ _ _)
  refine growsTo_trans ?_ (addJoinEdges_grow _ _ _ _ _)
  refine growsTo_trans ?_ (foldl_grow _ ?_ _ _)
  · refine growsTo_trans ?_ (foldl_grow _ ?_ _ _)
    · split
      · exact growsTo_trans (addSourceNodes_grow _ _ _ _) (addTableNode_grow _ _ _ _ _)
      · exact addSourceNodes_grow _ _ _ _
    · intro b k
      dsimp only
      exact addNode_grow _ _
  · intro b col
    exact addOutputColumnGraph_grow _ _ _ _ _ _

theorem processFullStatement_nodupIds {st : GraphBuilder} (stmt : Stmt)
    (h : nodupIds st) : nodupIds (processFullStatement st stmt) := by
  unfold processFullStatement
  refine addUnionEdges_nodupIds _ _ _ _ ?_
  refine addJoinEdges_nodupIds _ _ _ _ ?_
  refine foldl_builder_preserves nodupIds _ ?_ _ _ ?_
  · intro b col hb
    exact addOutputColumnGraph_nodupIds _ _ _ _ _ hb
  · refine foldl_builder_preserves nodupIds _ ?_ _ _ ?_
    · intro b k hb
      dsimp only
      exact addNode_nodupIds hb
    · have h1 := addSourceNodes_nodupIds stmt.sources stmt.index
        (buildSubqueryMap stmt.index stmt.sources) h
      split
      · exact addTableNode_nodupIds _ _ _ _ h1
      · exact h1

theorem buildFullGraph_grow (st : GraphBuilder) (sts : List Stmt) :
    growsTo st (buildFullGraph st sts) := by
  unfold buildFullGraph
  refine foldl_grow _ ?_ sts st
  intro b s
  exact processFullStatement_grow b s

theorem buildFullGraph_nodupIds {st : GraphBuilder} (sts : List Stmt)
    (h : nodupIds st) : nodupIds (buildFullGraph st sts) := by
  unfold buildFullGraph
  refine foldl_builder_preserves nodupIds _ ?_ sts st h
  intro b s hb
  exact processFullStatement_nodupIds s hb

theorem addErColumnNodes_grow (st : GraphBuilder) (oc : OutputColumn)
    (idx : Nat) (tgt : Option TargetTable) (sources : List SourceDict)
    (sqmap : List (String × String)) :
    growsTo st (addErColumnNodes st oc idx tgt sources sqmap) := by
  unfold addErColumnNodes
  refine growsTo_trans ?_ (foldl_grow _ ?_ _ _)
  · repeat
      first
        | exact growsTo_refl _
        | exact addNode_grow _ _
        | refine growsTo_trans ?_ (addNode_grow _ _)
        | refine growsTo_trans ?_ (addWarning_grow _ _ _ _ _)
        | split
  · intro b inp
    dsimp only
    repeat
      first
        | exact growsTo_refl _
        | exact addNode_grow _ _
        | refine growsTo_trans ?_ (addNode_grow _ _)
        | refine growsTo_trans ?_ (addWarning_grow _ _ _ _ _)
        | split

theorem addErColumnNodes_nodupIds {st : GraphBuilder} (oc : OutputColumn)
    (idx : Nat) (tgt : Option TargetTable) (sources : List SourceDict)
    (sqmap : List (String × String)) (h : nodupIds st) :
    nodupIds (addErColumnNodes st oc idx tgt sources sqmap) := by
  unfold addErColumnNodes
  refine foldl_builder_preserves nodupIds _ ?_ _ _ ?_
  · intro b inp hb
    dsimp only
    repeat
      first
        | exact hb
        | refine addNode_nodupIds ?_
        | refine addWarning_nodupIds _ _ _ _ ?_
        | split
  · repeat
      first
        | exact h
        | refine addNode_nodupIds ?_
        | split

theorem addErColumnEdges_grow (st : GraphBuilder)
    (columns : List OutputColumn) (idx : Nat) (sources : List SourceDict)
    (tgt : Option TargetTable) (sqmap : List (String × String)) :
    growsTo st (addErColumnEdges st columns idx sources tgt sqmap) := by
  unfold addErColumnEdges
  refine foldl_grow _ ?_ _ _
  intro b oc
  dsimp only
  refine foldl_grow _ ?_ _ _
  intro b2 inp
  dsimp only
  repeat
    first
      | exact growsTo_refl _
      | refine growsTo_trans ?_ (addEdge_grow _ _ _ _ _ _ _)
      | refine growsTo_trans ?_ (addWarning_grow _ _ _ _ _)
      | split

theorem addErColumnEdges_nodupIds {st : GraphBuilder}
    (columns : List OutputColumn) (idx : Nat) (sources : List SourceDict)
    (tgt : Option TargetTable) (sqmap : List (String × String))
    (h : nodupIds st) :
    nodupIds (addErColumnEdges st columns idx sources tgt sqmap) := by
  unfold addErColumnEdges
  refine foldl_builder_preserves nodupIds _ ?_ _ _ h
  intro b oc hb
  dsimp only
  refine foldl_builder_preserves nodupIds _ ?_ _ _ hb
  intro b2 inp hb2
  dsimp only
  repeat
    first
      | exact hb2
      | refine addEdge_nodupIds _ _ _ _ _ _ ?_
      | refine addWarning_nodupIds _ _ _ _ ?_
      | split

theorem addFkLikeEdges_grow (st : GraphBuilder) (stmt : Stmt) (idx : Nat)
    (sources : List SourceDict) (sqmap : List (String × String)) :
    growsTo st (addFkLikeEdges st stmt idx sources sqmap) := by
  unfold addFkLikeEdges
  refine foldl_grow _ ?_ _ _
  intro b j
  dsimp only
  repeat
    first
      | split
      | exact growsTo_refl _
      | refine growsTo_trans ?_ (addEdge_grow _ _ _ _ _ _ _)
      | refine growsTo_trans ?_ (addWarning_grow _ _ _ _ _)

theorem addFkLikeEdges_nodupIds {st : GraphBuilder} (stmt : Stmt)
    (idx : Nat) (sources : List SourceDict)
    (sqmap : List (String × String)) (h : nodupIds st) :
    nodupIds (addFkLikeEdges st stmt idx sources sqmap) := by
  unfold addFkLikeEdges
  refine foldl_builder_preserves nodupIds _ ?_ _ _ h
  intro b j hb
  dsimp only
  repeat
    first
      | split
      | exact hb
      | refine addEdge_nodupIds _ _ _ _ _ _ ?_
      | refine addWarning_nodupIds _ _ _ _ ?_

theorem processErStatement_grow (st : GraphBuilder) (stmt : Stmt) :
    growsTo st (processErStatement st stmt) := by
  unfold processErStatement
  refine growsTo_trans ?_ (addFkLikeEdges_grow _ _ _ _ _)
  refine growsTo_trans ?_ (addErColumnEdges_grow _ _ _ _ _ _)
  refine growsTo_trans ?_ (foldl_grow _ ?_ _ _)
  · split
    · exact growsTo_trans (addSourceNodes_grow _ _ _ _) (addTableNode_grow _ _ _ _ _)
    · exact addSourceNodes_grow _ _ _ _
  · intro b col
    exact addErColumnNodes_grow _ _ _ _ _ _

theorem processErStatement_nodupIds {st : GraphBuilder} (stmt : Stmt)
    (h : nodupIds st) : nodupIds (processErStatement st stmt) := by
  unfold processErStatement
  refine addFkLikeEdges_nodupIds _ _ _ _ ?_
  refine addErColumnEdges_nodupIds _ _ _ _ _ ?_
  refine foldl_builder_preserves nodupIds _ ?_ _ _ ?_
  · intro b col hb
    exact addErColumnNodes_nodupIds _ _ _ _ _ hb
  · have h1 := addSourceNodes_nodupIds stmt.sources stmt.index
      (buildSubqueryMap stmt.index stmt.sources) h
    split
    · exact addTableNode_nodupIds _ _ _ _ h1
    · exact h1

theorem ensureTableColumns_mem {st : GraphBuilder} {n : Node}
    (h : n ∈ st.nodes) :
    ∃ n2 ∈ (ensureTableColumns st).nodes,
      n2.id = n.id ∧ n2.type = n.type ∧ n2.table_id = n.table_id ∧
      n2.name = n.name ∧ n2.full_name = n.full_name := by
  unfold ensureTableColumns
  dsimp only
  refine ⟨_, List.mem_map_of_mem _ h, ?_⟩
  split <;> exact ⟨rfl, rfl, rfl, rfl, rfl⟩

theorem ensureTableColumns_countP (st : GraphBuilder) (x : String) :
    (ensureTableColumns st).nodes.countP (fun n => n.id = x) =
      st.nodes.countP (fun n => n.id = x) := by
  unfold ensureTableColumns
  dsimp only
  rw [List.countP_map]
  apply List.countP_congr
  intro a _
  dsimp only [Function.comp]
  split <;> rfl

theorem map_id_nodup_of_id_preserving (l : List Node) (f : Node → Node)
    (hf : ∀ n, (f n).id = n.id) (h : (l.map Node.id).Nodup) :
    ((l.map f).map Node.id).Nodup := by
  rw [List.map_map]
  have heq : List.map (Node.id ∘ f) l = List.map Node.id l :=
    List.map_congr_left (fun a _ => hf a)
  rw [heq]
  exact h

theorem ensureTableColumns_nodupIds {st : GraphBuilder}
    (h : nodupIds st) : nodupIds (ensureTableColumns st) := by
  unfold nodupIds at h ⊢
  unfold ensureTableColumns
  dsimp only
  refine map_id_nodup_of_id_preserving _ _ ?_ h
  intro n
  split <;> rfl

/-- The synthetic unknown-target table node emitted by
_add_output_column_graph and _add_er_column_nodes. -/
def unknownTableNode (i : Nat) : Node :=
  { id := tableId "unknown", type := "table", name := "unknown",
    database := "", schema := "", full_name := "unknown",
    statement_index := i, description := "Unknown target table" }

/-- The output-column node emitted under the unknown target table. -/
def unknownColumnNode (nm : String) (lits : List String) (i : Nat) : Node :=
  { id := columnId "unknown" nm, type := "column",
    table_id := tableId "unknown", name := nm,
    description := "Output column", literals := lits,
    statement_index := i }

/-- A targetless single-column statement. -/
def c10Stmt (i : Nat) (oc : OutputColumn) : Stmt :=
  { index := i, target := none, columns := [oc] }

/-- The builder produced from two targetless single-column statements. -/
def c10Graph (oc1 oc2 : OutputColumn) (i1 i2 : Nat) (mode : String) :
    GraphBuilder :=
  (buildGraphFromAnalysis [c10Stmt i1 oc1, c10Stmt i2 oc2] mode).1

theorem c10_base_nodes (i : Nat) (nm : String) (lits : List String) :
    (addNode (addNode ({} : GraphBuilder) (unknownTableNode i))
      (unknownColumnNode nm lits i)).nodes =
    [unknownTableNode i, unknownColumnNode nm lits i] := by
  have hfresh : ∀ m ∈ (addNode ({} : GraphBuilder)
      (unknownTableNode i)).nodes,
      m.id ≠ (unknownColumnNode nm lits i).id := by
    intro m hm
    rw [addNode_fresh (fun x hx => absurd hx (List.not_mem_nil x))] at hm
    simp only [List.nil_append, List.mem_singleton] at hm
    subst hm
    exact tableId_ne_columnUnknown "unknown" nm
  rw [addNode_fresh hfresh,
    addNode_fresh (fun x hx => absurd hx (List.not_mem_nil x))]
  rfl

theorem addOutputColumnGraph_unknown_grow (oc : OutputColumn) (i : Nat)
    (sources : List SourceDict) (sqmap : List (String × String)) :
    growsTo
      (addNode (addNode ({} : GraphBuilder) (unknownTableNode i))
        (unknownColumnNode oc.name oc.lineage.literals i))
      (addOutputColumnGraph {} oc i none sources sqmap) := by
  unfold addOutputColumnGraph
  dsimp only
  rw [if_pos rfl]
  refine growsTo_trans ?_ (foldl_grow _ ?_ _ _)
  · repeat
      first
        | split
        | exact growsTo_refl _
        | refine growsTo_trans ?_ (addEdge_grow _ _ _ _ _ _ _)
        | refine growsTo_trans ?_ (addNode_grow _ _)
  · intro b inp
    dsimp only
    repeat
      first
        | split
        | exact growsTo_refl _
        | refine growsTo_trans ?_ (addEdge_grow _ _ _ _ _ _ _)
        | refine growsTo_trans ?_ (addNode_grow _ _)
        | refine growsTo_trans ?_ (addWarning_grow _ _ _ _ _)

theorem addErColumnNodes_unknown_grow (oc : OutputColumn) (i : Nat)
    (sources : List SourceDict) (sqmap : List (String × String)) :
    growsTo
      (addNode (addNode ({} : GraphBuilder) (unknownTableNode i))
        (unknownColumnNode oc.name oc.lineage.literals i))
      (addErColumnNodes {} oc i none sources sqmap) := by
  unfold addErColumnNodes
  dsimp only
  rw [if_pos rfl]
  refine growsTo_trans ?_ (foldl_grow _ ?_ _ _)
  · exact growsTo_refl _
  · intro b inp
    dsimp only
    repeat
      first
        | split
        | exact growsTo_refl _
        | refine growsTo_trans ?_ (addNode_grow _ _)
        | refine growsTo_trans ?_ (addWarning_grow _ _ _ _ _)

/-- C10: in full and er_columns graph modes, a statement without a target
table attaches its output-column node to the synthetic table node with id
table:unknown and full name unknown; the node is shared across targetless
statements, and same-named output columns from different targetless
statements collapse into the single column node column:unknown.<name>
(both ids occur exactly once in the graph's node list). -/
theorem claim_C10 (oc1 oc2 : OutputColumn) (i1 i2 : Nat) (mode : String)
    (hmode : mode = "full" ∨ mode = "er_columns")
    (hname : oc2.name = oc1.name) :
    (∃ u ∈ (c10Graph oc1 oc2 i1 i2 mode).nodes,
        u.id = tableId "unknown" ∧ u.type = "table" ∧
        u.full_name = "unknown") ∧
    (∃ c ∈ (c10Graph oc1 oc2 i1 i2 mode).nodes,
        c.id = columnId "unknown" oc1.name ∧ c.type = "column" ∧
        c.table_id = tableId "unknown" ∧ c.name = oc1.name) ∧
    (c10Graph oc1 oc2 i1 i2 mode).nodes.countP
        (fun n => n.id = tableId "unknown") = 1 ∧
    (c10Graph oc1 oc2 i1 i2 mode).nodes.countP
        (fun n => n.id = columnId "unknown" oc1.name) = 1 := by
  have h0 : nodupIds ({} : GraphBuilder) := List.nodup_nil
  rcases hmode with hm | hm <;> subst hm
  · have hg : c10Graph oc1 oc2 i1 i2 "full" =
        processFullStatement (processFullStatement {} (c10Stmt i1 oc1))
          (c10Stmt i2 oc2) := rfl
    have h1 : processFullStatement {} (c10Stmt i1 oc1)
        = addOutputColumnGraph {} oc1 i1 none [] [] := rfl
    have hmemU : unknownTableNode i1 ∈
        (c10Graph oc1 oc2 i1 i2 "full").nodes := by
      rw [hg]
      refine mem_of_growsTo (processFullStatement_grow _ _) ?_
      rw [h1]
      refine mem_of_growsTo (addOutputColumnGraph_unknown_grow oc1 i1 [] [])
        ?_
      rw [c10_base_nodes]
      exact List.mem_cons_self _ _
    have hmemC : unknownColumnNode oc1.name oc1.lineage.literals i1 ∈
        (c10Graph oc1 oc2 i1 i2 "full").nodes := by
      rw [hg]
      refine mem_of_growsTo (processFullStatement_grow _ _) ?_
      rw [h1]
      refine mem_of_growsTo (addOutputColumnGraph_unknown_grow oc1 i1 [] [])
        ?_
      rw [c10_base_nodes]
      exact List.mem_cons_of_mem _ (List.mem_cons_self _ _)
    have hnd : nodupIds (c10Graph oc1 oc2 i1 i2 "full") := by
      have hg2 : c10Graph oc1 oc2 i1 i2 "full" =
          buildFullGraph {} [c10Stmt i1 oc1, c10Stmt i2 oc2] := rfl
      rw [hg2]
      exact buildFullGraph_nodupIds _ h0
    refine ⟨⟨unknownTableNode i1, hmemU, rfl, rfl, rfl⟩,
      ⟨unknownColumnNode oc1.name oc1.lineage.literals i1, hmemC,
        rfl, rfl, rfl, rfl⟩, ?_, ?_⟩
    · exact countP_id_eq_one hnd hmemU rfl
    · exact countP_id_eq_one hnd hmemC rfl
  · have hg : c10Graph oc1 oc2 i1 i2 "er_columns" =
        ensureTableColumns
          (processErStatement (processErStatement {} (c10Stmt i1 oc1))
            (c10Stmt i2 oc2)) := rfl
    have h1 : processErStatement {} (c10Stmt i1 oc1)
        = addFkLikeEdges
            (addErColumnEdges (addErColumnNodes {} oc1 i1 none [] [])
              [oc1] i1 [] none [])
            (c10Stmt i1 oc1) i1 [] [] := rfl
    have hmemU : unknownTableNode i1 ∈
        (processErStatement (processErStatement {} (c10Stmt i1 oc1))
          (c10Stmt i2 oc2)).nodes := by
      refine mem_of_growsTo (processErStatement_grow _ _) ?_
      rw [h1]
      refine mem_of_growsTo (addFkLikeEdges_grow _ _ _ _ _) ?_
      refine mem_of_growsTo (addErColumnEdges_grow _ _ _ _ _ _) ?_
      refine mem_of_growsTo (addErColumnNodes_unknown_grow oc1 i1 [] []) ?_
      rw [c10_base_nodes]
      exact List.mem_cons_self _ _
    have hmemC : unknownColumnNode oc1.name oc1.lineage.literals i1 ∈
        (processErStatement (processErStatement {} (c10Stmt i1 oc1))
          (c10Stmt i2 oc2)).nodes := by
      refine mem_of_growsTo (processErStatement_grow _ _) ?_
      rw [h1]
      refine mem_of_growsTo (addFkLikeEdges_grow _ _ _ _ _) ?_
      refine mem_of_growsTo (addErColumnEdges_grow _ _ _ _ _ _) ?_
      refine mem_of_growsTo (addErColumnNodes_unknown_grow oc1 i1 [] []) ?_
      rw [c10_base_nodes]
      exact List.mem_cons_of_mem _ (List.mem_cons_self _ _)
    have hnd : nodupIds
        (processErStatement (processErStatement {} (c10Stmt i1 oc1))
          (c10Stmt i2 oc2)) :=
      processErStatement_nodupIds _ (processErStatement_nodupIds _ h0)
    obtain ⟨u2, hu2, hu2id, hu2ty, _, _, hu2fn⟩ :=
      ensureTableColumns_mem hmemU
    obtain ⟨c2, hc2, hc2id, hc2ty, hc2tid, hc2nm, _⟩ :=
      ensureTableColumns_mem hmemC
    refine ⟨⟨u2, hg ▸ hu2, hu2id, hu2ty, hu2fn⟩,
      ⟨c2, hg ▸ hc2, hc2id, hc2ty, hc2tid, hc2nm⟩, ?_, ?_⟩
    · rw [hg, ensureTableColumns_countP]
      exact countP_id_eq_one hnd hmemU rfl
    · rw [hg, ensureTableColumns_countP]
      exact countP_id_eq_one hnd hmemC rfl

/-- One lineage record with no inputs for the C10 witness. -/
def c10Lineage : LineageData :=
  { lineage_type := "direct", inputs := [], mapping := [], functions := [],
    literals := [], notes := [] }

/-- A concrete output column named n for the C10 witness. -/
def c10Col : OutputColumn :=
  { name := "n", expression := "n", lineage := c10Lineage,
    dependencies := [] }

theorem claim_C10_witness :
    (∃ u ∈ (c10Graph c10Col c10Col 0 1 "full").nodes,
        u.id = tableId "unknown" ∧ u.type = "table" ∧
        u.full_name = "unknown") ∧
    (∃ c ∈ (c10Graph c10Col c10Col 0 1 "full").nodes,
        c.id = columnId "unknown" c10Col.name ∧ c.type = "column" ∧
        c.table_id = tableId "unknown" ∧ c.name = c10Col.name) ∧
    (c10Graph c10Col c10Col 0 1 "full").nodes.countP
        (fun n => n.id = tableId "unknown") = 1 ∧
    (c10Graph c10Col c10Col 0 1 "full").nodes.countP
        (fun n => n.id = columnId "unknown" c10Col.name) = 1 :=
  claim_C10 c10Col c10Col 0 1 "full" (Or.inl rfl) rfl

end SqlLineage
